import Mathlib

/-!
Shallow embedding of the marketplace-coordinator backend
(`src/backend/src/routes/{tasks,jobboard,agents}.ts` together with the
mongoose schemas in `models.ts` and the escrow service in
`services/escrow.ts`).

Collections are modelled as lists in chronological order; `Activity.create`
and `Model.create` append at the end.  Mongo ObjectIds are modelled by a
`Nat` counter in the state (`nextId`), so freshly created documents get
ids unseen before.  Each HTTP handler becomes a pure function from the
state, the request payload and an `Env` (the availability and outcome of
the external escrow / ENS / Nitrolite services plus the clock) to a status
code and the successor state.  JavaScript truthiness of a missing or empty
string field is modelled by `""` (for mandatory-string checks) or by
`Option` (for fields the code compares against `undefined`).
-/

namespace ACN

/-- Task status enum of `TaskSchema` in `models.ts`. -/
inductive TaskStatus
  | «open»
  | inProgress
  | review
  | settlement
  | completed
  | reversed
deriving DecidableEq, Repr

/-- Escrow status enum of `TaskSchema` in `models.ts`:
`'none' | 'pending_escrow' | 'held' | 'released' | 'refunded'`. -/
inductive EscrowStatus
  | none
  | pending_escrow
  | held
  | released
  | refunded
deriving DecidableEq, Repr

/-- Job-posting status enum of `JobPostingSchema`. -/
inductive PostingStatus
  | «open»
  | assigned
  | closed
deriving DecidableEq, Repr

/-- One element of `Task.workResults`. -/
structure WorkResult where
  agentId : Nat
  result : String
  submittedAt : Nat
deriving DecidableEq, Repr

/-- A `Task` document (schema `TaskSchema` in `models.ts`). -/
structure Task where
  id : Nat
  title : String
  description : String
  budget : Int
  status : TaskStatus
  creatorAddress : String
  assignedAgents : List Nat
  createdAt : Nat
  workResults : List WorkResult
  escrowAmount : Int
  escrowStatus : EscrowStatus
  escrowTxHash : Option String
  settlementHash : Option String
  settlementTxId : Option String
  settledAt : Option Nat
deriving DecidableEq, Repr

/-- An `Agent` document (schema `AgentSchema` in `models.ts`). -/
structure Agent where
  id : Nat
  ensName : String
  walletAddress : String
  role : String
  skills : List String
  maxLiability : Int
  reputation : Int
  active : Bool
  registeredAt : Nat
  subnameRegistered : Bool
  subnameNode : Option String
  subnameTxHash : Option String
  tasksCompleted : Int
  tasksFailed : Int
deriving DecidableEq, Repr

/-- A `JobPosting` document (schema `JobPostingSchema`). -/
structure JobPosting where
  id : Nat
  taskId : Nat
  creatorAddress : String
  title : String
  description : String
  budget : Int
  requiredSkills : List String
  postedAt : Nat
  status : PostingStatus
deriving DecidableEq, Repr

/-- A `JobBid` document (schema `JobBidSchema`). -/
structure JobBid where
  id : Nat
  jobId : Nat
  agentId : Nat
  agentEnsName : String
  message : String
  relevanceScore : Int
  estimatedTime : String
  proposedAmount : Int
  accepted : Bool
  createdAt : Nat
deriving DecidableEq, Repr

/-- The actor recorded in `Activity.agentId`: either a literal token
(`'SYSTEM'`, `'ARC_ESCROW'`, `'NITROLITE'`) or an agent id. -/
inductive ActorId
  | system
  | arcEscrow
  | nitrolite
  | agent (id : Nat)
deriving DecidableEq, Repr

/-- The action strings the backend writes into `Activity.action`,
kept structured so that the interpolated pieces stay visible; `render`
recovers the exact string the TypeScript code builds. -/
inductive ActionLabel
  | taskCreated
  | escrowLocked (amount : Int) (hash : String)
  | bidSubmitted
  | bidAccepted
  | workSubmitted
  | paymentSettled (amount : Int) (hash : String)
  | settlementFailed (msg : String)
  | refundProcessed (amount : Int) (hash : String)
  | statusChangedTo (st : TaskStatus)
deriving DecidableEq, Repr

/-- Uppercase form of a task status as produced by `status.toUpperCase()`
on the strings of `validStatuses` in `tasks.ts`. -/
def TaskStatus.upper : TaskStatus → String
  | .«open» => "OPEN"
  | .inProgress => "IN-PROGRESS"
  | .review => "REVIEW"
  | .settlement => "SETTLEMENT"
  | .completed => "COMPLETED"
  | .reversed => "REVERSED"

/-- The exact `Activity.action` string written by the backend. -/
def ActionLabel.render : ActionLabel → String
  | .taskCreated => "TASK_CREATED"
  | .escrowLocked amount hash =>
      "ESCROW_LOCKED — " ++ toString amount ++ " ytest.usd — " ++ hash
  | .bidSubmitted => "BID_SUBMITTED"
  | .bidAccepted => "BID_ACCEPTED"
  | .workSubmitted => "WORK_SUBMITTED"
  | .paymentSettled amount hash =>
      "PAYMENT_SETTLED — " ++ toString amount ++ " USDC — " ++ hash
  | .settlementFailed msg => "SETTLEMENT_FAILED — " ++ msg
  | .refundProcessed amount hash =>
      "REFUND_PROCESSED — " ++ toString amount ++ " USDC — " ++ hash
  | .statusChangedTo st => "STATUS_CHANGED_TO_" ++ st.upper

/-- An `Activity` document. -/
structure Activity where
  id : Nat
  agentId : ActorId
  taskId : Nat
  action : ActionLabel
  timestamp : Nat
deriving DecidableEq, Repr

/-- The whole document store. -/
structure AppState where
  tasks : List Task
  postings : List JobPosting
  bids : List JobBid
  agents : List Agent
  activities : List Activity
  nextId : Nat
deriving DecidableEq, Repr

/-- The empty store. -/
def initState : AppState :=
  { tasks := [], postings := [], bids := [], agents := [], activities := [], nextId := 0 }

/-- Availability and outcome of the external services during one request,
plus the clock.  `escrowAddress` is `EscrowService.address` — the wallet
that owns the escrow contract (`escrow.ts`). -/
structure Env where
  escrowAvailable : Bool
  escrowAddress : String
  releaseOk : Bool
  releaseTxHash : String
  releaseExplorerUrl : String
  releaseErrMsg : String
  refundOk : Bool
  refundTxHash : String
  refundExplorerUrl : String
  ensAvailable : Bool
  ensOk : Bool
  subnameNode : String
  subnameTxHash : Option String
  nitroliteAuthenticated : Bool
  nitroliteOk : Bool
  escrowLockHash : String
  escrowSimHash : String
  nitroliteRaw : String
  now : Nat
deriving DecidableEq, Repr

/-- Case-insensitive wallet comparison (`a.toLowerCase() === b.toLowerCase()`).
Phrased over the character lists (`String.toLower` maps `Char.toLower`
over them, and string equality is equality of the lists), which keeps the
comparison kernel-evaluable. -/
def strEqCI (a b : String) : Bool := a.data.map Char.toLower == b.data.map Char.toLower

/-- Model of `Task.findById`. -/
def findTask (s : AppState) (tid : Nat) : Option Task :=
  s.tasks.find? (fun t => t.id == tid)

/-- Model of `JobPosting.findById`. -/
def findPosting (s : AppState) (pid : Nat) : Option JobPosting :=
  s.postings.find? (fun p => p.id == pid)

/-- Model of `JobBid.findById`. -/
def findBid (s : AppState) (bid : Nat) : Option JobBid :=
  s.bids.find? (fun b => b.id == bid)

/-- Model of `Agent.findById`. -/
def findAgent (s : AppState) (aid : Nat) : Option Agent :=
  s.agents.find? (fun a => a.id == aid)

/-- Persist a mutated task (`task.save()`): replace the documents with this id. -/
def updateTask (s : AppState) (tid : Nat) (f : Task → Task) : AppState :=
  { s with tasks := s.tasks.map (fun t => if t.id == tid then f t else t) }

/-- Persist a mutated posting. -/
def updatePosting (s : AppState) (pid : Nat) (f : JobPosting → JobPosting) : AppState :=
  { s with postings := s.postings.map (fun p => if p.id == pid then f p else p) }

/-- Persist a mutated bid. -/
def updateBid (s : AppState) (bid : Nat) (f : JobBid → JobBid) : AppState :=
  { s with bids := s.bids.map (fun b => if b.id == bid then f b else b) }

/-- Persist a mutated agent. -/
def updateAgent (s : AppState) (aid : Nat) (f : Agent → Agent) : AppState :=
  { s with agents := s.agents.map (fun a => if a.id == aid then f a else a) }

/-- Model of `Activity.create` — appends one entry, consuming one fresh id. -/
def appendActivity (s : AppState) (actor : ActorId) (tid : Nat) (label : ActionLabel)
    (now : Nat) : AppState :=
  { s with
    activities := s.activities ++ [⟨s.nextId, actor, tid, label, now⟩],
    nextId := s.nextId + 1 }

/-- Body of `POST /api/jobboard` and of `POST /api/tasks`
(`{title, description?, budget, requiredSkills?, creatorAddress}`;
the plain-task route ignores `requiredSkills`).  A missing or empty
mandatory string is modelled by `""`; a missing `budget` by `0`
(both are falsy in `!title || !budget || !creatorAddress`). -/
structure CreateJobBody where
  title : String
  description : Option String
  budget : Int
  requiredSkills : Option (List String)
  creatorAddress : String
deriving DecidableEq, Repr

/-- Body of `PATCH /api/tasks/:id/status`. -/
structure PatchStatusBody where
  status : String
  agentId : Option Nat
deriving DecidableEq, Repr

/-- Body of `POST /api/jobboard/:id/bid`. -/
structure BidBody where
  agentId : Option Nat
  agentEnsName : Option String
  message : String
  relevanceScore : Option Int
  estimatedTime : Option String
  proposedAmount : Option Int
deriving DecidableEq, Repr

/-- Body of `POST /api/jobboard/:id/accept`. -/
structure AcceptBody where
  bidId : Option Nat
  callerAddress : Option String
deriving DecidableEq, Repr

/-- Body of `POST /api/tasks/:id/work` (`result === undefined` is the only
check on `result`, so it is an `Option`). -/
structure WorkBody where
  agentId : Option Nat
  result : Option String
deriving DecidableEq, Repr

/-- Body of `POST /api/tasks/:id/refund`. -/
structure RefundBody where
  callerAddress : Option String
deriving DecidableEq, Repr

/-- Body of `POST /api/agents`. -/
structure AgentUpsertBody where
  ensName : String
  walletAddress : String
  role : String
  skills : Option (List String)
  maxLiability : Option Int
deriving DecidableEq, Repr

/-- Body of `PATCH /api/agents/:id` — a partial `$set` document; every
field the schema knows can be overwritten, there is no whitelist. -/
structure AgentPatchBody where
  ensName : Option String
  walletAddress : Option String
  role : Option String
  skills : Option (List String)
  maxLiability : Option Int
  reputation : Option Int
  active : Option Bool
  subnameRegistered : Option Bool
  tasksCompleted : Option Int
  tasksFailed : Option Int
deriving DecidableEq, Repr

/-- The string-to-enum check of `validStatuses` in `PATCH /api/tasks/:id/status`. -/
def parseStatus : String → Option TaskStatus
  | "open" => some .«open»
  | "in-progress" => some .inProgress
  | "review" => some .review
  | "settlement" => some .settlement
  | "completed" => some .completed
  | "reversed" => some .reversed
  | _ => Option.none

/-- Model of `POST /api/jobboard` (`jobboard.ts`) — creates the Task (status
`'open'`, `escrowStatus: 'held'`, `escrowAmount: budget`), the JobPosting
(status `'open'`), performs the Nitrolite escrow transfer (every branch,
including failure and absence of the service, stores some escrow hash),
and appends the `ESCROW_LOCKED` activity.  Returns 201. -/
def jobboardCreate (s : AppState) (env : Env) (body : CreateJobBody) : Nat × AppState :=
  if body.title == "" || body.budget == 0 || body.creatorAddress == "" then
    (400, s)
  else
    let tid := s.nextId
    let hash : String :=
      if env.nitroliteAuthenticated && env.nitroliteOk then env.escrowLockHash
      else env.escrowSimHash
    let task : Task :=
      { id := tid, title := body.title, description := body.description.getD ""
        budget := body.budget, status := .«open», creatorAddress := body.creatorAddress
        assignedAgents := [], createdAt := env.now, workResults := []
        escrowAmount := body.budget, escrowStatus := .held
        escrowTxHash := some hash
        settlementHash := Option.none
        settlementTxId :=
          if env.nitroliteAuthenticated && env.nitroliteOk then some env.nitroliteRaw
          else Option.none
        settledAt := Option.none }
    let posting : JobPosting :=
      { id := s.nextId + 1, taskId := tid, creatorAddress := body.creatorAddress
        title := body.title, description := body.description.getD ""
        budget := body.budget, requiredSkills := body.requiredSkills.getD []
        postedAt := env.now, status := .«open» }
    let actor : ActorId := if env.nitroliteAuthenticated then .nitrolite else .system
    let s1 : AppState :=
      { s with tasks := s.tasks ++ [task], postings := s.postings ++ [posting]
               nextId := s.nextId + 2 }
    (201, appendActivity s1 actor tid (.escrowLocked body.budget hash) env.now)

/-- Model of `POST /api/tasks` (`tasks.ts`) — creates a standalone Task; the escrow
fields keep their schema defaults (`escrowAmount: 0`, `escrowStatus: 'none'`). -/
def tasksCreate (s : AppState) (env : Env) (body : CreateJobBody) : Nat × AppState :=
  if body.title == "" || body.budget == 0 || body.creatorAddress == "" then
    (400, s)
  else
    let tid := s.nextId
    let task : Task :=
      { id := tid, title := body.title, description := body.description.getD ""
        budget := body.budget, status := .«open», creatorAddress := body.creatorAddress
        assignedAgents := [], createdAt := env.now, workResults := []
        escrowAmount := 0, escrowStatus := .none
        escrowTxHash := Option.none, settlementHash := Option.none
        settlementTxId := Option.none, settledAt := Option.none }
    let s1 : AppState := { s with tasks := s.tasks ++ [task], nextId := s.nextId + 1 }
    (201, appendActivity s1 .system tid .taskCreated env.now)

/-- Model of `PATCH /api/tasks/:id/status` — the admin status override: sets any
valid status, touching nothing else of the task, and logs
`STATUS_CHANGED_TO_<X>`. -/
def tasksPatchStatus (s : AppState) (env : Env) (tid : Nat) (body : PatchStatusBody) :
    Nat × AppState :=
  match findTask s tid with
  | Option.none => (404, s)
  | some _ =>
    match parseStatus body.status with
    | Option.none => (400, s)
    | some st =>
      let s1 := updateTask s tid (fun t => { t with status := st })
      let actor : ActorId := match body.agentId with
        | some a => .agent a
        | Option.none => .system
      (200, appendActivity s1 actor tid (.statusChangedTo st) env.now)

/-- Model of `POST /api/jobboard/:id/bid` — appends a bid (`accepted: false`) and a
`BID_SUBMITTED` activity. -/
def jobboardBid (s : AppState) (env : Env) (pid : Nat) (body : BidBody) : Nat × AppState :=
  match findPosting s pid with
  | Option.none => (404, s)
  | some posting =>
    match body.agentId with
    | Option.none => (400, s)
    | some aid =>
      if body.message == "" then (400, s)
      else
        let bid : JobBid :=
          { id := s.nextId, jobId := pid, agentId := aid
            agentEnsName := body.agentEnsName.getD "unknown.acn.eth"
            message := body.message, relevanceScore := body.relevanceScore.getD 0
            estimatedTime := body.estimatedTime.getD "unknown"
            proposedAmount := body.proposedAmount.getD posting.budget
            accepted := false, createdAt := env.now }
        let s1 : AppState := { s with bids := s.bids ++ [bid], nextId := s.nextId + 1 }
        (201, appendActivity s1 (.agent aid) posting.taskId .bidSubmitted env.now)

/-- Model of `POST /api/jobboard/:id/accept` — creator-only gate, then
unconditionally marks the chosen bid accepted, the posting `assigned`, the
task `in-progress`, and appends the agent to `assignedAgents`.  There is
no check that another bid on the same job is already accepted. -/
def jobboardAccept (s : AppState) (env : Env) (pid : Nat) (body : AcceptBody) :
    Nat × AppState :=
  match findPosting s pid with
  | Option.none => (404, s)
  | some posting =>
    match body.bidId with
    | Option.none => (400, s)
    | some bidId =>
      match body.callerAddress with
      | Option.none => (400, s)
      | some caller =>
        if caller == "" then (400, s)
        else
          match findTask s posting.taskId with
          | Option.none => (404, s)
          | some task =>
            if !(strEqCI task.creatorAddress caller) then (403, s)
            else
              match findBid s bidId with
              | Option.none => (404, s)
              | some bid =>
                let s1 := updateBid s bidId (fun b => { b with accepted := true })
                let s2 := updatePosting s1 pid (fun p => { p with status := .assigned })
                let s3 := updateTask s2 posting.taskId (fun t =>
                  { t with status := .inProgress
                           assignedAgents := t.assignedAgents ++ [bid.agentId] })
                (200, appendActivity s3 (.agent bid.agentId) posting.taskId
                        .bidAccepted env.now)

/-- The ENS-reputation block inside the settlement branch of
`POST /api/tasks/:id/work`: runs only when the ENS registry service is
configured; loads the agent; when it exists and has an `ensName`,
increments `tasksCompleted` and bumps the reputation, capped at 100
(`Math.min(100, (agent.reputation ?? 50) + 2)`).  The subsequent on-chain
text-record write can fail, but only after `agent.save()`, so its outcome
does not affect the store. -/
def ensReputationUpdate (s : AppState) (env : Env) (aid : Nat) : AppState :=
  if env.ensAvailable then
    match findAgent s aid with
    | some a =>
      if a.ensName == "" then s
      else updateAgent s aid (fun ag =>
        { ag with tasksCompleted := ag.tasksCompleted + 1
                  reputation := min 100 (ag.reputation + 2) })
    | Option.none => s
  else s

/-- Result of `POST /api/tasks/:id/work`: the HTTP status, the successor
state, and the `escrow.release(taskId, recipient)` call the handler
emitted, if any. -/
structure WorkResponse where
  status : Nat
  state : AppState
  releaseCall : Option (Nat × String)
deriving DecidableEq, Repr

/-- Model of `POST /api/tasks/:id/work` (`tasks.ts`) — appends the work result and
sets the status to `'settlement'` with no precondition on the current
status; then, when the escrow service is up and `escrowStatus === 'held'`,
releases on-chain with `recipient = escrow.address` (the escrow wallet,
not the agent), marks the task `completed`/`released`, logs
`PAYMENT_SETTLED`, and bumps the agent's reputation if the ENS registry is
configured and the agent has an `ensName`.  The handler answers 200 on
every path that passes the input checks. -/
def tasksSubmitWork (s : AppState) (env : Env) (tid : Nat) (body : WorkBody) :
    WorkResponse :=
  match findTask s tid with
  | Option.none => ⟨404, s, Option.none⟩
  | some task =>
    match body.agentId, body.result with
    | Option.none, _ => ⟨400, s, Option.none⟩
    | _, Option.none => ⟨400, s, Option.none⟩
    | some aid, some result =>
      let s1 := updateTask s tid (fun t =>
        { t with workResults := t.workResults ++ [⟨aid, result, env.now⟩]
                 status := .settlement })
      let s2 := appendActivity s1 (.agent aid) tid .workSubmitted env.now
      if env.escrowAvailable && (task.escrowStatus == .held) then
        if env.releaseOk then
          let s3 := updateTask s2 tid (fun t =>
            { t with escrowStatus := .released
                     settlementHash := some env.releaseTxHash
                     settlementTxId := some env.releaseExplorerUrl
                     settledAt := some env.now
                     status := .completed })
          let s4 := appendActivity s3 .arcEscrow tid
            (.paymentSettled task.escrowAmount env.releaseTxHash) env.now
          ⟨200, ensReputationUpdate s4 env aid, some (tid, env.escrowAddress)⟩
        else
          let s3 := updateTask s2 tid (fun t => { t with status := .review })
          let s4 := appendActivity s3 .arcEscrow tid
            (.settlementFailed env.releaseErrMsg) env.now
          ⟨200, s4, some (tid, env.escrowAddress)⟩
      else if !env.escrowAvailable then
        ⟨200, updateTask s2 tid (fun t => { t with status := .review }), Option.none⟩
      else
        ⟨200, s2, Option.none⟩

/-- Model of `POST /api/tasks/:id/refund` — creator-only (case-insensitive, 403),
requires `escrowStatus === 'held'` (400) but no condition on `status`;
503 when the escrow service is down, 500 when the on-chain refund throws
(in both cases the task is untouched); on success the task becomes
`reversed`/`refunded` and `REFUND_PROCESSED` is logged. -/
def tasksRefund (s : AppState) (env : Env) (tid : Nat) (body : RefundBody) :
    Nat × AppState :=
  match findTask s tid with
  | Option.none => (404, s)
  | some task =>
    match body.callerAddress with
    | Option.none => (403, s)
    | some caller =>
      if caller == "" || !(strEqCI task.creatorAddress caller) then (403, s)
      else if !(task.escrowStatus == .held) then (400, s)
      else if !env.escrowAvailable then (503, s)
      else if !env.refundOk then (500, s)
      else
        let s1 := updateTask s tid (fun t =>
          { t with escrowStatus := .refunded
                   status := .reversed
                   settlementHash := some env.refundTxHash
                   settlementTxId := some env.refundExplorerUrl
                   settledAt := some env.now })
        (200, appendActivity s1 .arcEscrow tid
                (.refundProcessed task.escrowAmount env.refundTxHash) env.now)

/-- What `GET /api/tasks/:id` serializes: the task fields, with
`workResults` present only in the creator's view.  The route never writes
a `hasResults` field, so it is `none` on every path. -/
structure TaskView where
  id : Nat
  title : String
  description : String
  budget : Int
  status : TaskStatus
  creatorAddress : String
  assignedAgents : List Nat
  escrowAmount : Int
  escrowStatus : EscrowStatus
  settlementHash : Option String
  workResults : Option (List WorkResult)
  hasResults : Option Bool
deriving DecidableEq, Repr

/-- Model of `GET /api/tasks/:id?address=W` — `isRequester` is JS-truthy
`requesterAddress` and a case-insensitive match with
`task.creatorAddress`; the creator gets `workResults`, everyone else the
object with that key stripped (and nothing added in its place). -/
def tasksGet (s : AppState) (tid : Nat) (addr : Option String) : Option TaskView :=
  match findTask s tid with
  | Option.none => Option.none
  | some t =>
    let isRequester : Bool := match addr with
      | some a => a != "" && strEqCI t.creatorAddress a
      | Option.none => false
    some
      { id := t.id, title := t.title, description := t.description
        budget := t.budget, status := t.status, creatorAddress := t.creatorAddress
        assignedAgents := t.assignedAgents, escrowAmount := t.escrowAmount
        escrowStatus := t.escrowStatus, settlementHash := t.settlementHash
        workResults := if isRequester then some t.workResults else Option.none
        hasResults := Option.none }

/-- The `$set` application of `PATCH /api/agents/:id`: every supplied
field overwrites the stored one verbatim. -/
def applyAgentPatch (body : AgentPatchBody) (a : Agent) : Agent :=
  { a with
    ensName := body.ensName.getD a.ensName
    walletAddress := body.walletAddress.getD a.walletAddress
    role := body.role.getD a.role
    skills := body.skills.getD a.skills
    maxLiability := body.maxLiability.getD a.maxLiability
    reputation := body.reputation.getD a.reputation
    active := body.active.getD a.active
    subnameRegistered := body.subnameRegistered.getD a.subnameRegistered
    tasksCompleted := body.tasksCompleted.getD a.tasksCompleted
    tasksFailed := body.tasksFailed.getD a.tasksFailed }

/-- Model of `PATCH /api/agents/:id` — `findByIdAndUpdate` with `$set: req.body`;
no authorization, no whitelist, no range check; 404 when the id is
unknown, otherwise 200 with the patched agent. -/
def agentsPatch (s : AppState) (aid : Nat) (body : AgentPatchBody) : Nat × AppState :=
  match findAgent s aid with
  | Option.none => (404, s)
  | some _ => (200, updateAgent s aid (applyAgentPatch body))

/-- Model of `POST /api/agents` — upsert by `ensName`; on insert the defaults
(reputation 50, counters 0) apply; then the idempotent on-chain subname
registration, which is non-fatal on failure. -/
def agentsUpsert (s : AppState) (env : Env) (body : AgentUpsertBody) : Nat × AppState :=
  if body.ensName == "" || body.walletAddress == "" || body.role == "" then (400, s)
  else
    let setFields : Agent → Agent := fun a =>
      { a with walletAddress := body.walletAddress, role := body.role
               skills := body.skills.getD [], maxLiability := body.maxLiability.getD 0
               active := true }
    let s1 : AppState :=
      match s.agents.find? (fun a => a.ensName == body.ensName) with
      | some _ =>
        { s with agents := s.agents.map (fun a =>
            if a.ensName == body.ensName then setFields a else a) }
      | Option.none =>
        let fresh : Agent :=
          { id := s.nextId, ensName := body.ensName
            walletAddress := body.walletAddress, role := body.role
            skills := body.skills.getD [], maxLiability := body.maxLiability.getD 0
            reputation := 50, active := true, registeredAt := env.now
            subnameRegistered := false, subnameNode := Option.none
            subnameTxHash := Option.none, tasksCompleted := 0, tasksFailed := 0 }
        { s with agents := s.agents ++ [fresh], nextId := s.nextId + 1 }
    let s2 : AppState :=
      match s1.agents.find? (fun a => a.ensName == body.ensName) with
      | some a =>
        if env.ensAvailable && !a.subnameRegistered && env.ensOk then
          { s1 with agents := s1.agents.map (fun b =>
              if b.ensName == body.ensName then
                { b with subnameRegistered := true
                         subnameNode := some env.subnameNode
                         subnameTxHash := env.subnameTxHash }
              else b) }
        else s1
      | Option.none => s1
    (201, s2)

/-- One API invocation, for the reachability relation. -/
inductive Op
  | jobboardCreate (body : CreateJobBody)
  | tasksCreate (body : CreateJobBody)
  | patchStatus (tid : Nat) (body : PatchStatusBody)
  | bid (pid : Nat) (body : BidBody)
  | accept (pid : Nat) (body : AcceptBody)
  | work (tid : Nat) (body : WorkBody)
  | refund (tid : Nat) (body : RefundBody)
  | agentUpsert (body : AgentUpsertBody)
  | agentPatch (aid : Nat) (body : AgentPatchBody)

/-- State effect of one API invocation under a given environment. -/
def applyOp (s : AppState) (env : Env) : Op → AppState
  | .jobboardCreate body => (jobboardCreate s env body).2
  | .tasksCreate body => (tasksCreate s env body).2
  | .patchStatus tid body => (tasksPatchStatus s env tid body).2
  | .bid pid body => (jobboardBid s env pid body).2
  | .accept pid body => (jobboardAccept s env pid body).2
  | .work tid body => (tasksSubmitWork s env tid body).state
  | .refund tid body => (tasksRefund s env tid body).2
  | .agentUpsert body => (agentsUpsert s env body).2
  | .agentPatch aid body => (agentsPatch s aid body).2

/-- States reachable from the empty store by any sequence of API calls,
each under an arbitrary environment. -/
inductive Reachable : AppState → Prop
  | init : Reachable initState
  | step (s : AppState) (env : Env) (op : Op) : Reachable s → Reachable (applyOp s env op)

/-- Recognizes a `PAYMENT_SETTLED` activity entry (by its structured label;
the rendered string always starts with `PAYMENT_SETTLED`). -/
def isPaymentSettled : ActionLabel → Bool
  | .paymentSettled _ _ => true
  | _ => false

/-- Number of `PAYMENT_SETTLED` activities recorded for a given task id. -/
def countPS (s : AppState) (tid : Nat) : Nat :=
  s.activities.countP (fun a => a.taskId == tid && isPaymentSettled a.action)

/-- Modelled from the spec: the legal `(status, escrowStatus)` product set
generated by the §4.4 transition table, as enumerated by claim C3
(`pending` read as the schema's `pending_escrow`).  This is the
spec-side predicate to compare the code against, not code of the
repository. -/
def legalPair : TaskStatus → EscrowStatus → Bool
  | .«open», .pending_escrow => true
  | .«open», .held => true
  | .inProgress, .held => true
  | .settlement, .held => true
  | .review, .held => true
  | .completed, .released => true
  | .reversed, .refunded => true
  | _, _ => false

/-- Every stored task has an id below the allocation counter. -/
def taskFresh (s : AppState) : Prop := ∀ t ∈ s.tasks, t.id < s.nextId

/-- A task id has exactly one `PAYMENT_SETTLED` entry when its escrow is
released and none otherwise. -/
def psInv (s : AppState) : Prop :=
  ∀ tid, countPS s tid =
    match findTask s tid with
    | some t => if t.escrowStatus = .released then 1 else 0
    | Option.none => 0

/-- The inductive invariant for the settlement-activity claim. -/
def Inv (s : AppState) : Prop := taskFresh s ∧ psInv s

/-- Baseline environment: every external service up and succeeding,
Nitrolite unauthenticated (the simulated-escrow path of `jobboard.ts`). -/
def envBase : Env :=
  { escrowAvailable := true, escrowAddress := "0xESCROWOWNER"
    releaseOk := true, releaseTxHash := "0xRELEASE", releaseExplorerUrl := "url-release"
    releaseErrMsg := "revert", refundOk := true, refundTxHash := "0xREFUND"
    refundExplorerUrl := "url-refund", ensAvailable := true, ensOk := true
    subnameNode := "0xNODE", subnameTxHash := some "0xSUBTX"
    nitroliteAuthenticated := false, nitroliteOk := false
    escrowLockHash := "escrow_abc", escrowSimHash := "escrow_sim_abc"
    nitroliteRaw := "raw", now := 1000 }

/-- Environment without the ENS registry service. -/
def envNoEns : Env := { envBase with ensAvailable := false }

/-- A valid `POST /api/jobboard` body (creator `0xAAA`, budget 100). -/
def bodyJob : CreateJobBody :=
  { title := "Summarize", description := some "desc", budget := 100
    requiredSkills := some ["text-summarization"], creatorAddress := "0xAAA" }

/-- Store after one job creation: task 0 (`open`/`held`), posting 1,
`ESCROW_LOCKED` activity 2. -/
def sJob : AppState := (jobboardCreate initState envBase bodyJob).2

/-- Two bids on posting 1 by agents 11 and 12 (bid ids 3 and 5). -/
def bidBody1 : BidBody :=
  { agentId := some 11, agentEnsName := some "w1.acn.eth", message := "msg1"
    relevanceScore := some 80, estimatedTime := some "1h", proposedAmount := some 80 }

/-- Second bid body, from agent 12. -/
def bidBody2 : BidBody :=
  { agentId := some 12, agentEnsName := some "w2.acn.eth", message := "msg2"
    relevanceScore := some 70, estimatedTime := some "2h", proposedAmount := some 70 }

/-- Store after the two bids. -/
def sBids : AppState :=
  (jobboardBid (jobboardBid sJob envBase 1 bidBody1).2 envBase 1 bidBody2).2

/-- First acceptance: bid 3, caller spelled in lowercase to exercise the
case-insensitive creator gate. -/
def acceptOnce : Nat × AppState :=
  jobboardAccept sBids envBase 1 { bidId := some 3, callerAddress := some "0xaaa" }

/-- Second acceptance on the same posting with the other bid id. -/
def acceptTwice : Nat × AppState :=
  jobboardAccept acceptOnce.2 envBase 1 { bidId := some 5, callerAddress := some "0xAAA" }

/-- The posting as stored when the second accept arrives. -/
def postingC1 : JobPosting := (findPosting acceptOnce.2 1).get (by decide)

/-- The task as stored when the second accept arrives. -/
def taskC1 : Task := (findTask acceptOnce.2 0).get (by decide)

/-- The not-yet-accepted second bid at that moment. -/
def bidC1 : JobBid := (findBid acceptOnce.2 5).get (by decide)

/-- Work submission payload from agent 11. -/
def workBody1 : WorkBody := { agentId := some 11, result := some "result-1" }

/-- Store after task 0 settles through `POST /tasks/0/work`
(status `completed`, escrow `released`, one `PAYMENT_SETTLED`). -/
def sSettled : AppState := (tasksSubmitWork sJob envBase 0 workBody1).state

/-- The settled task 0. -/
def taskSettled : Task := (findTask sSettled 0).get (by decide)

/-- A second, identical work submission against the settled task. -/
def workTwice : WorkResponse := tasksSubmitWork sSettled envBase 0 workBody1

/-- The job task as first created (for the C2/C3 witnesses). -/
def taskJob : Task := (findTask sJob 0).get (by decide)

/-- Store after the admin override `PATCH /tasks/0/status` sets
`completed` on the `held` task. -/
def sOverride : AppState :=
  (tasksPatchStatus sJob envBase 0 { status := "completed", agentId := Option.none }).2

/-- Registration body for worker agent `w1.acn.eth`. -/
def agentBody1 : AgentUpsertBody :=
  { ensName := "w1.acn.eth", walletAddress := "0xWORKERWALLET", role := "summarizer"
    skills := some ["text-summarization"], maxLiability := some 10 }

/-- Store with one registered agent (id 0). -/
def sAgent : AppState := (agentsUpsert initState envBase agentBody1).2

/-- The agent as registered. -/
def agentW1 : Agent := (findAgent sAgent 0).get (by decide)

/-- Job creation on top of the registered agent: task id 1, posting id 2. -/
def sJob2 : AppState := (jobboardCreate sAgent envBase bodyJob).2

/-- Work submission by agent 0 on task 1 with every service up. -/
def workRes2 : WorkResponse :=
  tasksSubmitWork sJob2 envBase 1 { agentId := some 0, result := some "res" }

/-- The same submission with the ENS registry down. -/
def workNoEns : WorkResponse :=
  tasksSubmitWork sJob2 envNoEns 1 { agentId := some 0, result := some "res" }

/-- The task in `sJob2` before work submission (for witnesses). -/
def taskJob2 : Task := (findTask sJob2 1).get (by decide)

/-- A patch body driving the agent's reputation far outside `[0, 100]`. -/
def patchBodyWild : AgentPatchBody :=
  { ensName := Option.none, walletAddress := some "0xHIJACKED", role := Option.none
    skills := Option.none, maxLiability := Option.none, reputation := some (-50)
    active := Option.none, subnameRegistered := some true
    tasksCompleted := some 999, tasksFailed := Option.none }

/-- Updating the documents keyed `k` and then looking `k` up finds the
updated document, provided the update keeps the key. -/
theorem find?_map_key_eq {α : Type} (key : α → Nat) (f : α → α) (l : List α) (k : Nat)
    (hf : ∀ x, key (f x) = key x) :
    (l.map (fun x => if key x == k then f x else x)).find? (fun x => key x == k)
      = (l.find? (fun x => key x == k)).map f := by
  induction l with
  | nil => rfl
  | cons x xs ih =>
    simp only [List.map_cons]
    by_cases h : key x = k
    · rw [if_pos (by simpa using h)]
      rw [List.find?_cons_of_pos _ (by simpa [hf x] using h),
          List.find?_cons_of_pos _ (by simpa using h)]
      rfl
    · rw [if_neg (by simpa using h)]
      rw [List.find?_cons_of_neg _ (by simpa using h),
          List.find?_cons_of_neg _ (by simpa using h), ih]

/-- Updating the documents keyed `k` leaves lookups of any other key alone. -/
theorem find?_map_key_ne {α : Type} (key : α → Nat) (f : α → α) (l : List α) (k k' : Nat)
    (hf : ∀ x, key (f x) = key x) (hne : k' ≠ k) :
    (l.map (fun x => if key x == k then f x else x)).find? (fun x => key x == k')
      = l.find? (fun x => key x == k') := by
  induction l with
  | nil => rfl
  | cons x xs ih =>
    simp only [List.map_cons]
    by_cases h : key x = k
    · have h3 : key (f x) ≠ k' := by rw [hf x, h]; omega
      have h4 : key x ≠ k' := by rw [h]; omega
      rw [if_pos (by simpa using h)]
      rw [List.find?_cons_of_neg _ (by simpa using h3),
          List.find?_cons_of_neg _ (by simpa using h4), ih]
    · rw [if_neg (by simpa using h)]
      by_cases h5 : key x = k'
      · rw [List.find?_cons_of_pos _ (by simpa using h5),
            List.find?_cons_of_pos _ (by simpa using h5)]
      · rw [List.find?_cons_of_neg _ (by simpa using h5),
            List.find?_cons_of_neg _ (by simpa using h5), ih]

/-- A successful lookup in the prefix survives an append. -/
theorem find?_append_left {α : Type} (p : α → Bool) (l₁ l₂ : List α) (x : α)
    (h : l₁.find? p = some x) : (l₁ ++ l₂).find? p = some x := by
  induction l₁ with
  | nil => simp [List.find?] at h
  | cons y ys ih =>
    cases hy : p y with
    | true => simpa [List.find?_cons, hy] using h
    | false =>
      simp only [List.find?_cons, hy] at h
      simpa [List.find?_cons, hy] using ih h

/-- A failed lookup in the prefix defers to the appended suffix. -/
theorem find?_append_right {α : Type} (p : α → Bool) (l₁ l₂ : List α)
    (h : l₁.find? p = Option.none) : (l₁ ++ l₂).find? p = l₂.find? p := by
  induction l₁ with
  | nil => rfl
  | cons y ys ih =>
    cases hy : p y with
    | true => simp [List.find?_cons, hy] at h
    | false =>
      simp only [List.find?_cons, hy] at h
      simpa [List.find?_cons, hy] using ih h

/-- A lookup among documents whose keys are all below `k` fails. -/
theorem find?_key_big {α : Type} (key : α → Nat) (l : List α) (k : Nat)
    (h : ∀ x ∈ l, key x < k) : l.find? (fun x => key x == k) = Option.none := by
  refine List.find?_eq_none.mpr ?_
  intro x hx
  have := h x hx
  simp only [beq_iff_eq]
  omega

/-- Appending an activity leaves the task collection alone. -/
theorem findTask_appendActivity (s : AppState) (actor : ActorId) (tid : Nat)
    (label : ActionLabel) (now tid' : Nat) :
    findTask (appendActivity s actor tid label now) tid' = findTask s tid' := rfl

/-- Updating a posting leaves the task collection alone. -/
theorem findTask_updatePosting (s : AppState) (pid : Nat) (f : JobPosting → JobPosting)
    (tid' : Nat) : findTask (updatePosting s pid f) tid' = findTask s tid' := rfl

/-- Updating a bid leaves the task collection alone. -/
theorem findTask_updateBid (s : AppState) (bid : Nat) (f : JobBid → JobBid)
    (tid' : Nat) : findTask (updateBid s bid f) tid' = findTask s tid' := rfl

/-- Updating an agent leaves the task collection alone. -/
theorem findTask_updateAgent (s : AppState) (aid : Nat) (f : Agent → Agent)
    (tid' : Nat) : findTask (updateAgent s aid f) tid' = findTask s tid' := rfl

/-- Updating task `tid` and then loading `tid` yields the updated task. -/
theorem findTask_updateTask_self (s : AppState) (tid : Nat) (f : Task → Task)
    (hf : ∀ t, (f t).id = t.id) :
    findTask (updateTask s tid f) tid = (findTask s tid).map f :=
  find?_map_key_eq Task.id f s.tasks tid hf

/-- Updating task `tid` leaves every other task lookup alone. -/
theorem findTask_updateTask_ne (s : AppState) (tid : Nat) (f : Task → Task)
    (hf : ∀ t, (f t).id = t.id) (tid' : Nat) (hne : tid' ≠ tid) :
    findTask (updateTask s tid f) tid' = findTask s tid' :=
  find?_map_key_ne Task.id f s.tasks tid tid' hf hne

/-- Updating a bid and then loading it yields the updated bid. -/
theorem findBid_updateBid_self (s : AppState) (bid : Nat) (f : JobBid → JobBid)
    (hf : ∀ b, (f b).id = b.id) :
    findBid (updateBid s bid f) bid = (findBid s bid).map f :=
  find?_map_key_eq JobBid.id f s.bids bid hf

/-- Bid lookups ignore task updates. -/
theorem findBid_updateTask (s : AppState) (tid : Nat) (f : Task → Task) (bid : Nat) :
    findBid (updateTask s tid f) bid = findBid s bid := rfl

/-- Bid lookups ignore posting updates. -/
theorem findBid_updatePosting (s : AppState) (pid : Nat) (f : JobPosting → JobPosting)
    (bid : Nat) : findBid (updatePosting s pid f) bid = findBid s bid := rfl

/-- Bid lookups ignore appended activities. -/
theorem findBid_appendActivity (s : AppState) (actor : ActorId) (tid : Nat)
    (label : ActionLabel) (now bid : Nat) :
    findBid (appendActivity s actor tid label now) bid = findBid s bid := rfl

/-- Agent lookups ignore task updates. -/
theorem findAgent_updateTask (s : AppState) (tid : Nat) (f : Task → Task) (aid : Nat) :
    findAgent (updateTask s tid f) aid = findAgent s aid := rfl

/-- Agent lookups ignore appended activities. -/
theorem findAgent_appendActivity (s : AppState) (actor : ActorId) (tid : Nat)
    (label : ActionLabel) (now aid : Nat) :
    findAgent (appendActivity s actor tid label now) aid = findAgent s aid := rfl

/-- Updating an agent and then loading it yields the updated agent. -/
theorem findAgent_updateAgent_self (s : AppState) (aid : Nat) (f : Agent → Agent)
    (hf : ∀ a, (f a).id = a.id) :
    findAgent (updateAgent s aid f) aid = (findAgent s aid).map f :=
  find?_map_key_eq Agent.id f s.agents aid hf

/-- The `PAYMENT_SETTLED` counting ignores task updates. -/
theorem countPS_updateTask (s : AppState) (tid : Nat) (f : Task → Task) (tid' : Nat) :
    countPS (updateTask s tid f) tid' = countPS s tid' := rfl

/-- The `PAYMENT_SETTLED` counting ignores posting updates. -/
theorem countPS_updatePosting (s : AppState) (pid : Nat) (f : JobPosting → JobPosting)
    (tid' : Nat) : countPS (updatePosting s pid f) tid' = countPS s tid' := rfl

/-- The `PAYMENT_SETTLED` counting ignores bid updates. -/
theorem countPS_updateBid (s : AppState) (bid : Nat) (f : JobBid → JobBid)
    (tid' : Nat) : countPS (updateBid s bid f) tid' = countPS s tid' := rfl

/-- The `PAYMENT_SETTLED` counting ignores agent updates. -/
theorem countPS_updateAgent (s : AppState) (aid : Nat) (f : Agent → Agent)
    (tid' : Nat) : countPS (updateAgent s aid f) tid' = countPS s tid' := rfl

/-- Appending one activity adds one to the count exactly when it is a
`PAYMENT_SETTLED` entry for the counted task. -/
theorem countPS_appendActivity (s : AppState) (actor : ActorId) (tid : Nat)
    (label : ActionLabel) (now tid' : Nat) :
    countPS (appendActivity s actor tid label now) tid' =
      countPS s tid' + (if (tid == tid') && isPaymentSettled label then 1 else 0) := by
  simp [countPS, appendActivity, List.countP_append, List.countP_cons]

/-- The ENS reputation block never touches the task collection. -/
theorem findTask_ensUpdate (s : AppState) (env : Env) (aid tid' : Nat) :
    findTask (ensReputationUpdate s env aid) tid' = findTask s tid' := by
  unfold ensReputationUpdate
  split
  · split
    · split
      · rfl
      · exact findTask_updateAgent _ _ _ _
    · rfl
  · rfl

/-- The ENS reputation block never touches the activity log. -/
theorem countPS_ensUpdate (s : AppState) (env : Env) (aid tid' : Nat) :
    countPS (ensReputationUpdate s env aid) tid' = countPS s tid' := by
  unfold ensReputationUpdate
  split
  · split
    · split
      · rfl
      · exact countPS_updateAgent _ _ _ _
    · rfl
  · rfl

/-- When the ENS registry is configured and the agent exists with an
`ensName`, the block increments `tasksCompleted` and caps the bumped
reputation at 100. -/
theorem findAgent_ensUpdate_hit (s : AppState) (env : Env) (aid : Nat) (a : Agent)
    (hens : env.ensAvailable = true) (ha : findAgent s aid = some a)
    (hname : a.ensName ≠ "") :
    findAgent (ensReputationUpdate s env aid) aid =
      some { a with tasksCompleted := a.tasksCompleted + 1
                    reputation := min 100 (a.reputation + 2) } := by
  unfold ensReputationUpdate
  simp only [hens, if_true, ha]
  rw [if_neg (by simpa using hname)]
  rw [findAgent_updateAgent_self s aid
        (fun ag => { ag with tasksCompleted := ag.tasksCompleted + 1
                             reputation := min 100 (ag.reputation + 2) })
        (fun _ => rfl), ha]
  rfl

/-- C1 — counterexample.  Two acceptance attempts with distinct bidIds on
the same posting both return 200 (the second does not yield 409), and the
store ends with two accepted bids on the job: the accept route has no
`AlreadyAccepted` check. -/
theorem C1_counterexample :
    acceptOnce.1 = 200 ∧ acceptTwice.1 = 200 ∧
    acceptTwice.2.bids.countP (fun b => b.accepted) = 2 := by decide

/-- C1 (amended) — `POST /jobboard/:id/accept` performs no already-accepted
check: whenever the posting, its task, and the named bid exist and the
caller wallet matches the creator case-insensitively, the route answers
200 and marks that bid accepted — regardless of any previously accepted
bid on the same posting. -/
theorem C1_accept_ignores_prior_acceptance
    (s : AppState) (env : Env) (pid bidId : Nat) (caller : String)
    (posting : JobPosting) (task : Task) (bid : JobBid)
    (hp : findPosting s pid = some posting)
    (ht : findTask s posting.taskId = some task)
    (hc : caller ≠ "")
    (hauth : strEqCI task.creatorAddress caller = true)
    (hb : findBid s bidId = some bid) :
    (jobboardAccept s env pid ⟨some bidId, some caller⟩).1 = 200 ∧
    findBid (jobboardAccept s env pid ⟨some bidId, some caller⟩).2 bidId =
      some { bid with accepted := true } := by
  have hcb : (caller == "") = false := beq_eq_false_iff_ne.mpr hc
  unfold jobboardAccept
  simp only [hp, ht, hb, hcb, hauth, Bool.not_true, Bool.false_eq_true, if_false]
  constructor
  · trivial
  · rw [findBid_appendActivity, findBid_updateTask, findBid_updatePosting,
        findBid_updateBid_self s bidId
          (fun b => { b with accepted := true }) (fun _ => rfl), hb]
    rfl

/-- C1 — witness: the second acceptance, on a posting that already has an
accepted bid, still succeeds and accepts bid 5. -/
theorem C1_witness :
    (jobboardAccept acceptOnce.2 envBase 1 ⟨some 5, some "0xAAA"⟩).1 = 200 ∧
    findBid (jobboardAccept acceptOnce.2 envBase 1 ⟨some 5, some "0xAAA"⟩).2 5 =
      some { bidC1 with accepted := true } :=
  C1_accept_ignores_prior_acceptance acceptOnce.2 envBase 1 5 "0xAAA"
    postingC1 taskC1 bidC1 (Option.some_get _).symm (by decide) (by decide)
    (by decide) (Option.some_get _).symm

/-- C2 — counterexample.  A second work submission against a task that is
already `completed`/`released` (not in-progress/held) is not rejected with
`InvalidTransition` (400): it returns 200, appends a second workResult,
and moves the task back to `settlement`. -/
theorem C2_counterexample :
    (findTask sSettled 0).map Task.status = some .completed ∧
    (findTask sSettled 0).map Task.escrowStatus = some .released ∧
    workTwice.status = 200 ∧
    (findTask workTwice.state 0).map (fun t => t.workResults.length) = some 2 ∧
    (findTask workTwice.state 0).map Task.status = some .settlement := by decide

/-- C2 (amended) — `POST /tasks/:id/work` has no precondition on the
current `(status, escrowStatus)`: for every existing task and non-missing
`agentId`/`result` it answers 200, appends the workResult, and sets the
status to `settlement`, which then becomes `completed` when a held escrow
is released, or `review` when the release fails or the escrow service is
down. -/
theorem C2_work_has_no_status_guard
    (s : AppState) (env : Env) (tid aid : Nat) (r : String) (t : Task)
    (ht : findTask s tid = some t) :
    (tasksSubmitWork s env tid ⟨some aid, some r⟩).status = 200 ∧
    ∃ u, findTask (tasksSubmitWork s env tid ⟨some aid, some r⟩).state tid = some u ∧
      u.workResults = t.workResults ++ [⟨aid, r, env.now⟩] ∧
      u.status = (if env.escrowAvailable && (t.escrowStatus == EscrowStatus.held) then
                    (if env.releaseOk then .completed else .review)
                  else if !env.escrowAvailable then .review else .settlement) := by
  unfold tasksSubmitWork
  simp only [ht]
  by_cases h3 : env.escrowAvailable = true
  · by_cases hheld : t.escrowStatus = EscrowStatus.held
    · have h1 : (env.escrowAvailable && (t.escrowStatus == EscrowStatus.held)) = true := by
        simp [h3, hheld]
      by_cases h2 : env.releaseOk = true
      · simp only [h1, h2, if_true]
        refine ⟨trivial, ?_⟩
        rw [findTask_ensUpdate, findTask_appendActivity,
            findTask_updateTask_self _ tid
              (fun t => { t with escrowStatus := EscrowStatus.released
                                 settlementHash := some env.releaseTxHash
                                 settlementTxId := some env.releaseExplorerUrl
                                 settledAt := some env.now
                                 status := TaskStatus.completed }) (fun _ => rfl),
            findTask_appendActivity,
            findTask_updateTask_self _ tid
              (fun t => { t with workResults := t.workResults ++ [⟨aid, r, env.now⟩]
                                 status := TaskStatus.settlement }) (fun _ => rfl), ht]
        exact ⟨_, rfl, rfl, rfl⟩
      · simp only [h1, h2, if_true, Bool.false_eq_true, if_false]
        refine ⟨trivial, ?_⟩
        rw [findTask_appendActivity,
            findTask_updateTask_self _ tid
              (fun t => { t with status := TaskStatus.review }) (fun _ => rfl),
            findTask_appendActivity,
            findTask_updateTask_self _ tid
              (fun t => { t with workResults := t.workResults ++ [⟨aid, r, env.now⟩]
                                 status := TaskStatus.settlement }) (fun _ => rfl), ht]
        exact ⟨_, rfl, rfl, rfl⟩
    · have h1 : (env.escrowAvailable && (t.escrowStatus == EscrowStatus.held)) = false := by
        simp [hheld]
      have h4 : (!env.escrowAvailable) = false := by rw [h3]; rfl
      simp only [h1, h4, Bool.false_eq_true, if_false]
      refine ⟨trivial, ?_⟩
      rw [findTask_appendActivity,
          findTask_updateTask_self _ tid
            (fun t => { t with workResults := t.workResults ++ [⟨aid, r, env.now⟩]
                               status := TaskStatus.settlement }) (fun _ => rfl), ht]
      exact ⟨_, rfl, rfl, rfl⟩
  · have h3f : env.escrowAvailable = false := by
      cases h : env.escrowAvailable
      · rfl
      · exact absurd h h3
    have h1 : (env.escrowAvailable && (t.escrowStatus == EscrowStatus.held)) = false := by
      simp [h3f]
    have h4 : (!env.escrowAvailable) = true := by rw [h3f]; rfl
    simp only [h1, h4, Bool.false_eq_true, if_false, if_true]
    refine ⟨trivial, ?_⟩
    rw [findTask_updateTask_self _ tid
          (fun t => { t with status := TaskStatus.review }) (fun _ => rfl),
        findTask_appendActivity,
        findTask_updateTask_self _ tid
          (fun t => { t with workResults := t.workResults ++ [⟨aid, r, env.now⟩]
                             status := TaskStatus.settlement }) (fun _ => rfl), ht]
    exact ⟨_, rfl, rfl, rfl⟩

/-- C2 — witness: submitting work against the freshly created task (which
is `open`, an event the §4.4 table does not allow for `SubmitWork`)
succeeds with 200 and appends the result. -/
theorem C2_witness :
    (tasksSubmitWork sJob envBase 0 ⟨some 11, some "result-1"⟩).status = 200 ∧
    ∃ u, findTask (tasksSubmitWork sJob envBase 0 ⟨some 11, some "result-1"⟩).state 0 =
        some u ∧
      u.workResults = taskJob.workResults ++ [⟨11, "result-1", envBase.now⟩] ∧
      u.status = (if envBase.escrowAvailable && (taskJob.escrowStatus == EscrowStatus.held)
                  then (if envBase.releaseOk then .completed else .review)
                  else if !envBase.escrowAvailable then .review else .settlement) :=
  C2_work_has_no_status_guard sJob envBase 0 11 "result-1" taskJob
    (Option.some_get _).symm

/-- C3 — counterexample.  The legal product set is escaped by two concrete
runs: the admin override turns the held job task into `(completed, held)`,
and `POST /tasks` creates a task with `(open, none)`. -/
theorem C3_counterexample :
    (findTask sOverride 0).map (fun t => legalPair t.status t.escrowStatus) = some false ∧
    ((tasksCreate initState envBase bodyJob).2.tasks.map
        (fun t => legalPair t.status t.escrowStatus)) = [false] := by decide

/-- C3 (amended) — no such invariant holds: `PATCH /tasks/:id/status` sets
any requested valid status while leaving `escrowStatus` (and everything
else) unchanged, so pairs outside the §4.4 product set are reachable, and
`POST /tasks` already creates the out-of-set pair `(open, none)`. -/
theorem C3_status_override_ignores_escrow
    (s : AppState) (env : Env) (tid : Nat) (body : PatchStatusBody) (t : Task)
    (st : TaskStatus) (ht : findTask s tid = some t)
    (hst : parseStatus body.status = some st) :
    (tasksPatchStatus s env tid body).1 = 200 ∧
    findTask (tasksPatchStatus s env tid body).2 tid = some { t with status := st } := by
  unfold tasksPatchStatus
  simp only [ht, hst]
  refine ⟨trivial, ?_⟩
  rw [findTask_appendActivity,
      findTask_updateTask_self _ tid (fun u => { u with status := st }) (fun _ => rfl), ht]
  rfl

/-- C3 — witness: overriding the held job task to `completed` answers 200
and leaves escrowStatus `held`. -/
theorem C3_witness :
    (tasksPatchStatus sJob envBase 0 ⟨"completed", Option.none⟩).1 = 200 ∧
    findTask (tasksPatchStatus sJob envBase 0 ⟨"completed", Option.none⟩).2 0 =
      some { taskJob with status := .completed } :=
  C3_status_override_ignores_escrow sJob envBase 0 ⟨"completed", Option.none⟩ taskJob
    .completed (Option.some_get _).symm rfl

/-- C4 — counterexample.  The job-board task is born with escrowStatus
`held`, not `pending` (`pending_escrow` in the schema's enum). -/
theorem C4_counterexample :
    ((jobboardCreate initState envBase bodyJob).2.tasks.map Task.escrowStatus
      = [.held]) ∧
    EscrowStatus.held ≠ EscrowStatus.pending_escrow := by decide

/-- C4 (amended) — every successful `POST /jobboard` returns 201 and
creates exactly one Task with status `open` and escrowStatus `held`
(escrowAmount = budget), together with exactly one JobPosting with status
`open` pointing at that task. -/
theorem C4_create_job_held
    (s : AppState) (env : Env) (body : CreateJobBody)
    (h1 : body.title ≠ "") (h2 : body.budget ≠ 0) (h3 : body.creatorAddress ≠ "") :
    (jobboardCreate s env body).1 = 201 ∧
    ∃ t p, (jobboardCreate s env body).2.tasks = s.tasks ++ [t] ∧
      t.status = .«open» ∧ t.escrowStatus = .held ∧ t.escrowAmount = body.budget ∧
      (jobboardCreate s env body).2.postings = s.postings ++ [p] ∧
      p.status = .«open» ∧ p.taskId = t.id := by
  have hb1 : (body.title == "") = false := beq_eq_false_iff_ne.mpr h1
  have hb2 : (body.budget == 0) = false := beq_eq_false_iff_ne.mpr h2
  have hb3 : (body.creatorAddress == "") = false := beq_eq_false_iff_ne.mpr h3
  unfold jobboardCreate
  simp only [hb1, hb2, hb3, Bool.or_false, Bool.false_eq_true, if_false]
  exact ⟨trivial, _, _, rfl, rfl, rfl, rfl, rfl, rfl, rfl⟩

/-- C4 — witness at the concrete creation request. -/
theorem C4_witness :
    (jobboardCreate initState envBase bodyJob).1 = 201 ∧
    ∃ t p, (jobboardCreate initState envBase bodyJob).2.tasks = initState.tasks ++ [t] ∧
      t.status = .«open» ∧ t.escrowStatus = .held ∧ t.escrowAmount = bodyJob.budget ∧
      (jobboardCreate initState envBase bodyJob).2.postings = initState.postings ++ [p] ∧
      p.status = .«open» ∧ p.taskId = t.id :=
  C4_create_job_held initState envBase bodyJob (by decide) (by decide) (by decide)

/-- C5 — counterexample.  On settlement of the job the worker (agent 0,
wallet `0xWORKERWALLET`) won, the release call goes to the escrow
service's own wallet `0xESCROWOWNER`, not to the worker. -/
theorem C5_counterexample :
    workRes2.releaseCall = some (1, "0xESCROWOWNER") ∧
    (findAgent sJob2 0).map Agent.walletAddress = some "0xWORKERWALLET" ∧
    "0xESCROWOWNER" ≠ "0xWORKERWALLET" ∧
    (findTask workRes2.state 1).map Task.escrowStatus = some .released := by decide

/-- C5 (amended) — whenever `POST /tasks/:id/work` emits an escrow release,
the recipient is `escrow.address` — the escrow wallet that owns the
contract — never the worker's wallet (the source comments this as a
production TODO). -/
theorem C5_release_recipient_is_escrow_owner
    (s : AppState) (env : Env) (tid : Nat) (body : WorkBody) (p : Nat) (recip : String)
    (h : (tasksSubmitWork s env tid body).releaseCall = some (p, recip)) :
    p = tid ∧ recip = env.escrowAddress := by
  unfold tasksSubmitWork at h
  cases hft : findTask s tid with
  | none => rw [hft] at h; exact absurd h (by simp)
  | some t =>
    rw [hft] at h
    cases hA : body.agentId with
    | none => simp only [hA] at h; exact absurd h (by simp)
    | some aid =>
      cases hR : body.result with
      | none => simp only [hA, hR] at h; exact absurd h (by simp)
      | some r =>
        simp only [hA, hR] at h
        by_cases h1 : (env.escrowAvailable && (t.escrowStatus == EscrowStatus.held)) = true
        · by_cases h2 : env.releaseOk = true
          · simp only [h1, h2, if_true] at h
            simp only [Option.some.injEq, Prod.mk.injEq] at h
            exact ⟨h.1.symm, h.2.symm⟩
          · simp only [h1, h2, if_true, Bool.false_eq_true, if_false] at h
            simp only [Option.some.injEq, Prod.mk.injEq] at h
            exact ⟨h.1.symm, h.2.symm⟩
        · by_cases h3 : (!env.escrowAvailable) = true
          · simp only [h1, h3, Bool.false_eq_true, if_false, if_true] at h
            exact absurd h (by simp)
          · simp only [h1, h3, Bool.false_eq_true, if_false] at h
            exact absurd h (by simp)

/-- C5 — witness: the concrete settlement's release call names the escrow
wallet. -/
theorem C5_witness : (1 : Nat) = 1 ∧ "0xESCROWOWNER" = envBase.escrowAddress :=
  C5_release_recipient_is_escrow_owner sJob2 envBase 1 ⟨some 0, some "res"⟩ 1
    "0xESCROWOWNER" (by decide)

/-- C6 — counterexample.  With the ENS registry service not configured the
settlement still succeeds (`completed`/`released`) but the winning
worker's record is not updated: `tasksCompleted` stays 0 and reputation
stays 50 — the update does not occur on every successful settlement. -/
theorem C6_counterexample :
    (findTask workNoEns.state 1).map Task.escrowStatus = some .released ∧
    (findTask workNoEns.state 1).map Task.status = some .completed ∧
    (findAgent workNoEns.state 0).map Agent.tasksCompleted = some 0 ∧
    (findAgent workNoEns.state 0).map Agent.reputation = some 50 := by decide

/-- C6 (amended) — when settlement succeeds *and* the ENS registry service
is configured *and* the submitted `agentId` resolves to an agent with an
`ensName`, that agent's `tasksCompleted` is incremented by 1 and its new
reputation is `min 100 (reputation + 2)`, hence never exceeds 100; absent
the ENS service (or the agent), no update happens. -/
theorem C6_reputation_update_needs_ens
    (s : AppState) (env : Env) (tid aid : Nat) (r : String) (t : Task) (a : Agent)
    (ht : findTask s tid = some t) (hheld : t.escrowStatus = .held)
    (hesc : env.escrowAvailable = true) (hrel : env.releaseOk = true)
    (hens : env.ensAvailable = true)
    (ha : findAgent s aid = some a) (hname : a.ensName ≠ "") :
    findAgent (tasksSubmitWork s env tid ⟨some aid, some r⟩).state aid =
      some { a with tasksCompleted := a.tasksCompleted + 1
                    reputation := min 100 (a.reputation + 2) } ∧
    min 100 (a.reputation + 2) ≤ 100 := by
  unfold tasksSubmitWork
  simp only [ht]
  have h1 : (env.escrowAvailable && (t.escrowStatus == EscrowStatus.held)) = true := by
    simp [hesc, hheld]
  simp only [h1, hrel, if_true]
  refine ⟨?_, min_le_left _ _⟩
  exact findAgent_ensUpdate_hit _ env aid a hens
    (by rw [findAgent_appendActivity, findAgent_updateTask,
            findAgent_appendActivity, findAgent_updateTask]; exact ha) hname

/-- C6 — witness: the concrete settlement with ENS configured bumps agent 0
from (50, 0 completed) to (52, 1 completed). -/
theorem C6_witness :
    findAgent (tasksSubmitWork sJob2 envBase 1 ⟨some 0, some "res"⟩).state 0 =
      some { agentW1 with tasksCompleted := agentW1.tasksCompleted + 1
                          reputation := min 100 (agentW1.reputation + 2) } ∧
    min 100 (agentW1.reputation + 2) ≤ 100 :=
  C6_reputation_update_needs_ens sJob2 envBase 1 0 "res" taskJob2 agentW1
    (Option.some_get _).symm (by decide) rfl rfl rfl (Option.some_get _).symm (by decide)

/-- C7 — counterexample.  A refund on a task whose status is `completed`
(escrow still `held` after an admin override) is not rejected with 400:
it succeeds with 200 and flips the task to `(reversed, refunded)` — the
route checks only the escrow status, never `open | in-progress`. -/
theorem C7_counterexample :
    (findTask sOverride 0).map Task.status = some .completed ∧
    (tasksRefund sOverride envBase 0 ⟨some "0xaaa"⟩).1 = 200 ∧
    (findTask (tasksRefund sOverride envBase 0 ⟨some "0xaaa"⟩).2 0).map Task.status =
      some .reversed ∧
    (findTask (tasksRefund sOverride envBase 0 ⟨some "0xaaa"⟩).2 0).map
        Task.escrowStatus = some .refunded := by decide

/-- C7 (amended) — `POST /tasks/:id/refund` succeeds exactly for the
case-insensitive creator on a task with escrowStatus `held` (with the
escrow service up and the on-chain refund succeeding), regardless of the
task's `status`; otherwise it answers 403 (non-creator or missing caller),
400 (escrow not held), 503 (service down) or 500 (refund threw), leaving
the store untouched; on success the task ends `(reversed, refunded)`. -/
theorem C7_refund_behavior
    (s : AppState) (env : Env) (tid : Nat) (t : Task)
    (ht : findTask s tid = some t) :
    (tasksRefund s env tid ⟨Option.none⟩ = (403, s)) ∧
    (∀ c, strEqCI t.creatorAddress c = false →
        tasksRefund s env tid ⟨some c⟩ = (403, s)) ∧
    (∀ c, c ≠ "" → strEqCI t.creatorAddress c = true → t.escrowStatus ≠ .held →
        tasksRefund s env tid ⟨some c⟩ = (400, s)) ∧
    (∀ c, c ≠ "" → strEqCI t.creatorAddress c = true → t.escrowStatus = .held →
        env.escrowAvailable = false → tasksRefund s env tid ⟨some c⟩ = (503, s)) ∧
    (∀ c, c ≠ "" → strEqCI t.creatorAddress c = true → t.escrowStatus = .held →
        env.escrowAvailable = true → env.refundOk = false →
        tasksRefund s env tid ⟨some c⟩ = (500, s)) ∧
    (∀ c, c ≠ "" → strEqCI t.creatorAddress c = true → t.escrowStatus = .held →
        env.escrowAvailable = true → env.refundOk = true →
        (tasksRefund s env tid ⟨some c⟩).1 = 200 ∧
        findTask (tasksRefund s env tid ⟨some c⟩).2 tid =
          some { t with status := .reversed, escrowStatus := .refunded
                        settlementHash := some env.refundTxHash
                        settlementTxId := some env.refundExplorerUrl
                        settledAt := some env.now }) := by
  refine ⟨?_, ?_, ?_, ?_, ?_, ?_⟩
  · unfold tasksRefund; simp only [ht]
  · intro c hci
    unfold tasksRefund
    simp only [ht, hci, Bool.not_false, Bool.or_true, if_true]
  · intro c hc hci hheld
    have hcb : (c == "") = false := beq_eq_false_iff_ne.mpr hc
    have hsb : (t.escrowStatus == EscrowStatus.held) = false := by
      simpa using hheld
    unfold tasksRefund
    simp only [ht, hci, hcb, Bool.not_true, Bool.or_false, Bool.false_eq_true, if_false,
               hsb, Bool.not_false, if_true]
  · intro c hc hci hheld hesc
    have hcb : (c == "") = false := beq_eq_false_iff_ne.mpr hc
    have hsb : (t.escrowStatus == EscrowStatus.held) = true := by simp [hheld]
    unfold tasksRefund
    simp only [ht, hci, hcb, Bool.not_true, Bool.or_false, Bool.false_eq_true, if_false,
               hsb, hesc, Bool.not_false, if_true]
  · intro c hc hci hheld hesc hrf
    have hcb : (c == "") = false := beq_eq_false_iff_ne.mpr hc
    have hsb : (t.escrowStatus == EscrowStatus.held) = true := by simp [hheld]
    unfold tasksRefund
    simp only [ht, hci, hcb, Bool.not_true, Bool.or_false, Bool.false_eq_true, if_false,
               hsb, hesc, hrf, Bool.not_true, Bool.not_false, if_true]
  · intro c hc hci hheld hesc hrf
    have hcb : (c == "") = false := beq_eq_false_iff_ne.mpr hc
    have hsb : (t.escrowStatus == EscrowStatus.held) = true := by simp [hheld]
    unfold tasksRefund
    simp only [ht, hci, hcb, Bool.not_true, Bool.or_false, Bool.false_eq_true, if_false,
               hsb, hesc, hrf, Bool.not_true, Bool.not_false, if_true]
    refine ⟨trivial, ?_⟩
    rw [findTask_appendActivity,
        findTask_updateTask_self _ tid
          (fun u => { u with escrowStatus := EscrowStatus.refunded
                             status := TaskStatus.reversed
                             settlementHash := some env.refundTxHash
                             settlementTxId := some env.refundExplorerUrl
                             settledAt := some env.now }) (fun _ => rfl), ht]
    rfl

/-- C7 — witness: the creator's refund of the held job task succeeds with
200 and flips it to `(reversed, refunded)`; the refund of the released
(settled) task is rejected with 400 and changes nothing. -/
theorem C7_witness :
    ((tasksRefund sJob envBase 0 ⟨some "0xaaa"⟩).1 = 200 ∧
     findTask (tasksRefund sJob envBase 0 ⟨some "0xaaa"⟩).2 0 =
       some { taskJob with status := .reversed, escrowStatus := .refunded
                           settlementHash := some envBase.refundTxHash
                           settlementTxId := some envBase.refundExplorerUrl
                           settledAt := some envBase.now }) ∧
    tasksRefund sSettled envBase 0 ⟨some "0xaaa"⟩ = (400, sSettled) := by
  constructor
  · exact (C7_refund_behavior sJob envBase 0 taskJob
      (Option.some_get _).symm).2.2.2.2.2 "0xaaa" (by decide) (by decide) (by decide)
      rfl rfl
  · exact (C7_refund_behavior sSettled envBase 0 taskSettled
      (Option.some_get _).symm).2.2.1 "0xaaa" (by decide) (by decide) (by decide)

/-- C9 — counterexample.  A non-creator reading the settled task (which has
one work result) receives a response with neither `workResults` nor any
`hasResults` boolean — the route strips the key and substitutes nothing. -/
theorem C9_counterexample :
    (tasksGet sSettled 0 (some "0xBBB")).map TaskView.hasResults = some Option.none ∧
    (tasksGet sSettled 0 (some "0xBBB")).map TaskView.workResults = some Option.none ∧
    (findTask sSettled 0).map (fun t => t.workResults.length) = some 1 := by decide

/-- C9 (amended) — `workResults` is included exactly for the
case-insensitive creator (with a non-empty `address` query); every other
caller gets the task without `workResults` and without any substitute
`hasResults` field (the handler never writes one for anybody). -/
theorem C9_work_results_visibility
    (s : AppState) (tid : Nat) (t : Task) (ht : findTask s tid = some t) :
    (∀ a, a ≠ "" → strEqCI t.creatorAddress a = true →
      (tasksGet s tid (some a)).map TaskView.workResults = some (some t.workResults)) ∧
    (∀ a, strEqCI t.creatorAddress a = false →
      (tasksGet s tid (some a)).map TaskView.workResults = some Option.none) ∧
    ((tasksGet s tid Option.none).map TaskView.workResults = some Option.none) ∧
    (∀ a, (tasksGet s tid (some a)).map TaskView.hasResults = some Option.none) ∧
    ((tasksGet s tid Option.none).map TaskView.hasResults = some Option.none) := by
  refine ⟨?_, ?_, ?_, ?_, ?_⟩
  · intro a ha hci
    have hab : (a != "") = true := by simpa using ha
    unfold tasksGet
    simp only [ht, hab, hci, Bool.true_and, if_true]
    rfl
  · intro a hci
    unfold tasksGet
    simp only [ht, hci, Bool.and_false]
    rfl
  · unfold tasksGet; simp only [ht]; rfl
  · intro a; unfold tasksGet
    simp only [ht]; rfl
  · unfold tasksGet; simp only [ht]; rfl

/-- C9 — witness: the creator (case-insensitively) sees the one work
result of the settled task. -/
theorem C9_witness :
    (tasksGet sSettled 0 (some "0xaaa")).map TaskView.workResults =
      some (some taskSettled.workResults) :=
  (C9_work_results_visibility sSettled 0 taskSettled
    (Option.some_get _).symm).1 "0xaaa" (by decide) (by decide)

/-- C10 — `PATCH /agents/:id` is a whitelist-free, authorization-free
`$set`: whatever values the body supplies land verbatim on the agent
(reputation included, with no `[0,100]` clamp), and the only failure mode
is 404 for an unknown id. -/
theorem C10_agent_patch_unrestricted
    (s : AppState) (aid : Nat) (body : AgentPatchBody) :
    (findAgent s aid = Option.none → agentsPatch s aid body = (404, s)) ∧
    (∀ a, findAgent s aid = some a →
      (agentsPatch s aid body).1 = 200 ∧
      ∃ a2, findAgent (agentsPatch s aid body).2 aid = some a2 ∧
        a2.reputation = body.reputation.getD a.reputation ∧
        a2.walletAddress = body.walletAddress.getD a.walletAddress ∧
        a2.tasksCompleted = body.tasksCompleted.getD a.tasksCompleted ∧
        a2.tasksFailed = body.tasksFailed.getD a.tasksFailed ∧
        a2.subnameRegistered = body.subnameRegistered.getD a.subnameRegistered) := by
  constructor
  · intro h
    unfold agentsPatch
    simp only [h]
  · intro a ha
    unfold agentsPatch
    simp only [ha]
    refine ⟨trivial, ?_⟩
    rw [findAgent_updateAgent_self s aid (applyAgentPatch body) (fun _ => rfl), ha]
    exact ⟨_, rfl, rfl, rfl, rfl, rfl, rfl⟩

/-- C10 — witness: patching agent 0 with reputation −50 (outside [0,100]),
wallet `0xHIJACKED`, `tasksCompleted` 999 and `subnameRegistered` true is
accepted verbatim with 200, and the same patch on unknown id 99 yields
404 with the store unchanged. -/
theorem C10_witness :
    (agentsPatch sAgent 99 patchBodyWild = (404, sAgent)) ∧
    ((agentsPatch sAgent 0 patchBodyWild).1 = 200 ∧
      ∃ a2, findAgent (agentsPatch sAgent 0 patchBodyWild).2 0 = some a2 ∧
        a2.reputation = patchBodyWild.reputation.getD agentW1.reputation ∧
        a2.walletAddress = patchBodyWild.walletAddress.getD agentW1.walletAddress ∧
        a2.tasksCompleted = patchBodyWild.tasksCompleted.getD agentW1.tasksCompleted ∧
        a2.tasksFailed = patchBodyWild.tasksFailed.getD agentW1.tasksFailed ∧
        a2.subnameRegistered =
          patchBodyWild.subnameRegistered.getD agentW1.subnameRegistered) :=
  ⟨(C10_agent_patch_unrestricted sAgent 99 patchBodyWild).1 (by decide),
   (C10_agent_patch_unrestricted sAgent 0 patchBodyWild).2 agentW1
     (Option.some_get _).symm⟩

/-- Unfolding equation for `countPS`. -/
theorem countPS_def (s : AppState) (tid : Nat) :
    countPS s tid =
      s.activities.countP (fun a => a.taskId == tid && isPaymentSettled a.action) := rfl

/-- Unfolding equation for `findTask`. -/
theorem findTask_def (s : AppState) (tid : Nat) :
    findTask s tid = s.tasks.find? (fun t => t.id == tid) := rfl

/-- The empty store satisfies the settlement invariant. -/
theorem inv_init : Inv initState := by
  constructor
  · intro t ht
    exact absurd ht (List.not_mem_nil t)
  · intro tid
    rfl

/-- A step that keeps the task list and the activity log and does not
shrink the id counter preserves the invariant. -/
theorem inv_of_same_tasks_acts (s s' : AppState) (h : Inv s)
    (ht : s'.tasks = s.tasks) (ha : s'.activities = s.activities)
    (hn : s.nextId ≤ s'.nextId) : Inv s' := by
  constructor
  · intro t htm
    rw [ht] at htm
    have h1 := h.1 t htm
    omega
  · intro tid
    have hc : countPS s' tid = countPS s tid := by rw [countPS_def, ha, countPS_def]
    have hf : findTask s' tid = findTask s tid := by rw [findTask_def, ht, findTask_def]
    rw [hc, hf]
    exact h.2 tid

/-- A step that appends no `PAYMENT_SETTLED` entry preserves `psInv`,
provided every task lookup keeps its released-ness: either unchanged, or
a fresh non-released task, or an update preserving `= released`. -/
theorem psInv_of_no_settlement (s s' : AppState) (h : psInv s)
    (hact : ∀ tid, countPS s' tid = countPS s tid)
    (htask : ∀ tid,
      (findTask s' tid = findTask s tid) ∨
      (findTask s tid = Option.none ∧
        ∃ u, findTask s' tid = some u ∧ u.escrowStatus ≠ .released) ∨
      (∃ u t, findTask s' tid = some u ∧ findTask s tid = some t ∧
        (u.escrowStatus = .released ↔ t.escrowStatus = .released))) :
    psInv s' := by
  intro tid
  rw [hact tid]
  have h2 := h tid
  rcases htask tid with heq | ⟨hn, u, hu, hur⟩ | ⟨u, t, hu, htt, hiff⟩
  · rw [heq]
    exact h2
  · rw [hu]
    rw [hn] at h2
    have h2' : countPS s tid = 0 := h2
    show countPS s tid = if u.escrowStatus = .released then 1 else 0
    rw [if_neg hur]
    exact h2'
  · rw [hu]
    rw [htt] at h2
    have h2' : countPS s tid = if t.escrowStatus = .released then 1 else 0 := h2
    show countPS s tid = if u.escrowStatus = .released then 1 else 0
    rw [if_congr hiff rfl rfl]
    exact h2'

/-- Appending an activity keeps all task ids below the counter. -/
theorem taskFresh_appendActivity (s : AppState) (actor : ActorId) (tid : Nat)
    (label : ActionLabel) (now : Nat) (h : taskFresh s) :
    taskFresh (appendActivity s actor tid label now) := by
  intro t ht
  have h1 := h t ht
  show t.id < s.nextId + 1
  omega

/-- An id-preserving task update keeps all task ids below the counter. -/
theorem taskFresh_updateTask (s : AppState) (tid : Nat) (f : Task → Task)
    (hf : ∀ t, (f t).id = t.id) (h : taskFresh s) :
    taskFresh (updateTask s tid f) := by
  intro t ht
  rcases List.mem_map.mp ht with ⟨u, hu, rfl⟩
  by_cases hc : (u.id == tid) = true
  · show (if u.id == tid then f u else u).id < s.nextId
    rw [if_pos hc, hf u]
    exact h u hu
  · show (if u.id == tid then f u else u).id < s.nextId
    rw [if_neg hc]
    exact h u hu

/-- The ENS block touches only agents, so task freshness survives it. -/
theorem taskFresh_ensUpdate (s : AppState) (env : Env) (aid : Nat)
    (h : taskFresh s) : taskFresh (ensReputationUpdate s env aid) := by
  unfold ensReputationUpdate
  split
  · split
    · split
      · exact h
      · exact h
    · exact h
  · exact h

/-- Route `PATCH /agents/:id` preserves the settlement invariant. -/
theorem inv_agentsPatch (s : AppState) (aid : Nat) (body : AgentPatchBody)
    (h : Inv s) : Inv (agentsPatch s aid body).2 := by
  unfold agentsPatch
  split
  · exact h
  · exact inv_of_same_tasks_acts s _ h rfl rfl (Nat.le_refl _)

/-- Route `POST /agents` preserves the settlement invariant. -/
theorem inv_agentsUpsert (s : AppState) (env : Env) (body : AgentUpsertBody)
    (h : Inv s) : Inv (agentsUpsert s env body).2 := by
  unfold agentsUpsert
  split
  · exact h
  · split
    · dsimp only
      split
      · split
        · exact inv_of_same_tasks_acts s _ h rfl rfl (Nat.le_refl _)
        · exact inv_of_same_tasks_acts s _ h rfl rfl (Nat.le_refl _)
      · exact inv_of_same_tasks_acts s _ h rfl rfl (Nat.le_refl _)
    · dsimp only
      split
      · split
        · exact inv_of_same_tasks_acts s _ h rfl rfl (Nat.le_succ _)
        · exact inv_of_same_tasks_acts s _ h rfl rfl (Nat.le_succ _)
      · exact inv_of_same_tasks_acts s _ h rfl rfl (Nat.le_succ _)

/-- Route `PATCH /tasks/:id/status` preserves the settlement invariant: it logs
no `PAYMENT_SETTLED` and does not touch `escrowStatus`. -/
theorem inv_tasksPatchStatus (s : AppState) (env : Env) (tid : Nat)
    (body : PatchStatusBody) (h : Inv s) : Inv (tasksPatchStatus s env tid body).2 := by
  unfold tasksPatchStatus
  cases hft : findTask s tid with
  | none => simp only [hft]; exact h
  | some x =>
    cases hps : parseStatus body.status with
    | none => simp only [hft, hps]; exact h
    | some st =>
      simp only [hft, hps]
      constructor
      · exact taskFresh_appendActivity _ _ _ _ _
          (taskFresh_updateTask _ _ _ (fun _ => rfl) h.1)
      · apply psInv_of_no_settlement s _ h.2
        · intro tid'
          rw [countPS_appendActivity]
          simp only [isPaymentSettled, Bool.and_false, Bool.false_eq_true, if_false,
                     Nat.add_zero]
          exact countPS_updateTask _ _ _ _
        · intro tid'
          by_cases he : tid' = tid
          · subst he
            right; right
            refine ⟨{ x with status := st }, x, ?_, hft, Iff.rfl⟩
            rw [findTask_appendActivity,
                findTask_updateTask_self _ tid'
                  (fun u => { u with status := st }) (fun _ => rfl), hft]
            rfl
          · left
            rw [findTask_appendActivity,
                findTask_updateTask_ne _ tid
                  (fun u => { u with status := st }) (fun _ => rfl) tid' he]

/-- Route `POST /jobboard/:id/bid` preserves the settlement invariant. -/
theorem inv_jobboardBid (s : AppState) (env : Env) (pid : Nat) (body : BidBody)
    (h : Inv s) : Inv (jobboardBid s env pid body).2 := by
  unfold jobboardBid
  cases hp : findPosting s pid with
  | none => simp only [hp]; exact h
  | some posting =>
    cases hA : body.agentId with
    | none => simp only [hp, hA]; exact h
    | some aid =>
      simp only [hp, hA]
      split
      · exact h
      · constructor
        · intro t ht
          have h1 := h.1 t ht
          show t.id < s.nextId + 1 + 1
          omega
        · apply psInv_of_no_settlement s _ h.2
          · intro tid'
            rw [countPS_appendActivity]
            simp only [isPaymentSettled, Bool.and_false, Bool.false_eq_true, if_false,
                       Nat.add_zero]
            rfl
          · intro tid'
            left
            rfl

/-- Route `POST /jobboard/:id/accept` preserves the settlement invariant: the
task update touches neither `escrowStatus` nor the activity count. -/
theorem inv_jobboardAccept (s : AppState) (env : Env) (pid : Nat) (body : AcceptBody)
    (h : Inv s) : Inv (jobboardAccept s env pid body).2 := by
  unfold jobboardAccept
  cases hp : findPosting s pid with
  | none => simp only [hp]; exact h
  | some posting =>
    cases hB : body.bidId with
    | none => simp only [hp, hB]; exact h
    | some bidId =>
      cases hC : body.callerAddress with
      | none => simp only [hp, hB, hC]; exact h
      | some caller =>
        simp only [hp, hB, hC]
        split
        · exact h
        · cases hT : findTask s posting.taskId with
          | none => simp only [hT]; exact h
          | some task =>
            simp only [hT]
            split
            · exact h
            · cases hBid : findBid s bidId with
              | none => simp only [hBid]; exact h
              | some bid =>
                simp only [hBid]
                constructor
                · exact taskFresh_appendActivity _ _ _ _ _
                    (taskFresh_updateTask _ _ _ (fun _ => rfl) h.1)
                · apply psInv_of_no_settlement s _ h.2
                  · intro tid'
                    rw [countPS_appendActivity]
                    simp only [isPaymentSettled, Bool.and_false, Bool.false_eq_true,
                               if_false, Nat.add_zero]
                    exact countPS_updateTask _ _ _ _
                  · intro tid'
                    by_cases he : tid' = posting.taskId
                    · subst he
                      right; right
                      rw [findTask_appendActivity,
                          findTask_updateTask_self _ posting.taskId
                            (fun t => { t with status := .inProgress,
                                               assignedAgents :=
                                                 t.assignedAgents ++ [bid.agentId] })
                            (fun _ => rfl),
                          findTask_updatePosting, findTask_updateBid, hT]
                      exact ⟨_, task, rfl, rfl, Iff.rfl⟩
                    · left
                      rw [findTask_appendActivity,
                          findTask_updateTask_ne _ posting.taskId
                            (fun t => { t with status := .inProgress,
                                               assignedAgents :=
                                                 t.assignedAgents ++ [bid.agentId] })
                            (fun _ => rfl) tid' he,
                          findTask_updatePosting, findTask_updateBid]

/-- Route `POST /tasks/:id/refund` preserves the settlement invariant: the task
goes `held → refunded` (both unreleased) and only `REFUND_PROCESSED` is
logged. -/
theorem inv_tasksRefund (s : AppState) (env : Env) (tid : Nat) (body : RefundBody)
    (h : Inv s) : Inv (tasksRefund s env tid body).2 := by
  unfold tasksRefund
  cases hft : findTask s tid with
  | none => simp only [hft]; exact h
  | some task =>
    cases hC : body.callerAddress with
    | none => simp only [hft, hC]; exact h
    | some caller =>
      simp only [hft, hC]
      split
      · exact h
      · split
        · exact h
        · split
          · exact h
          · split
            · exact h
            · rename_i hauth hheld0 hesc hrefund
              have hheld : task.escrowStatus = EscrowStatus.held := by
                simpa using hheld0
              constructor
              · exact taskFresh_appendActivity _ _ _ _ _
                  (taskFresh_updateTask _ _ _ (fun _ => rfl) h.1)
              · apply psInv_of_no_settlement s _ h.2
                · intro tid'
                  rw [countPS_appendActivity]
                  simp only [isPaymentSettled, Bool.and_false, Bool.false_eq_true,
                             if_false, Nat.add_zero]
                  exact countPS_updateTask _ _ _ _
                · intro tid'
                  by_cases he : tid' = tid
                  · subst he
                    right; right
                    rw [findTask_appendActivity,
                        findTask_updateTask_self _ tid'
                          (fun u => { u with escrowStatus := EscrowStatus.refunded,
                                             status := TaskStatus.reversed,
                                             settlementHash := some env.refundTxHash,
                                             settlementTxId := some env.refundExplorerUrl,
                                             settledAt := some env.now })
                          (fun _ => rfl), hft]
                    refine ⟨_, task, rfl, rfl, ?_⟩
                    simp [hheld]
                  · left
                    rw [findTask_appendActivity,
                        findTask_updateTask_ne _ tid
                          (fun u => { u with escrowStatus := EscrowStatus.refunded,
                                             status := TaskStatus.reversed,
                                             settlementHash := some env.refundTxHash,
                                             settlementTxId := some env.refundExplorerUrl,
                                             settledAt := some env.now })
                          (fun _ => rfl) tid' he]

/-- Route `POST /tasks` preserves the settlement invariant: the new task is
fresh and unreleased (`escrowStatus: 'none'`). -/
theorem inv_tasksCreate (s : AppState) (env : Env) (body : CreateJobBody)
    (h : Inv s) : Inv (tasksCreate s env body).2 := by
  unfold tasksCreate
  split
  · exact h
  · constructor
    · intro t ht
      rcases List.mem_append.mp ht with h1 | h2
      · have := h.1 t h1
        show t.id < s.nextId + 1 + 1
        omega
      · rw [List.mem_singleton] at h2
        subst h2
        show s.nextId < s.nextId + 1 + 1
        omega
    · apply psInv_of_no_settlement s _ h.2
      · intro tid'
        rw [countPS_appendActivity]
        simp only [isPaymentSettled, Bool.and_false, Bool.false_eq_true, if_false,
                   Nat.add_zero]
        rfl
      · intro tid'
        cases hf : findTask s tid' with
        | some t =>
          left
          have hf2 : s.tasks.find? (fun u => u.id == tid') = some t := hf
          exact find?_append_left _ s.tasks _ t hf2
        | none =>
          have hf2 : s.tasks.find? (fun u => u.id == tid') = Option.none := hf
          by_cases htid : tid' = s.nextId
          · subst htid
            right; left
            exact ⟨rfl, _,
              (find?_append_right _ s.tasks _ hf2).trans
                (List.find?_cons_of_pos _ (by simp)),
              fun hx => EscrowStatus.noConfusion hx⟩
          · left
            refine (find?_append_right _ s.tasks _ hf2).trans ?_
            refine List.find?_cons_of_neg _ ?_
            simp only [beq_iff_eq]
            exact fun hx => htid hx.symm

/-- Route `POST /jobboard` preserves the settlement invariant: the new task is
fresh and held (`held ≠ released`). -/
theorem inv_jobboardCreate (s : AppState) (env : Env) (body : CreateJobBody)
    (h : Inv s) : Inv (jobboardCreate s env body).2 := by
  unfold jobboardCreate
  split
  · exact h
  · constructor
    · intro t ht
      rcases List.mem_append.mp ht with h1 | h2
      · have := h.1 t h1
        show t.id < s.nextId + 2 + 1
        omega
      · rw [List.mem_singleton] at h2
        subst h2
        show s.nextId < s.nextId + 2 + 1
        omega
    · apply psInv_of_no_settlement s _ h.2
      · intro tid'
        rw [countPS_appendActivity]
        simp only [isPaymentSettled, Bool.and_false, Bool.false_eq_true, if_false,
                   Nat.add_zero]
        rfl
      · intro tid'
        cases hf : findTask s tid' with
        | some t =>
          left
          have hf2 : s.tasks.find? (fun u => u.id == tid') = some t := hf
          exact find?_append_left _ s.tasks _ t hf2
        | none =>
          have hf2 : s.tasks.find? (fun u => u.id == tid') = Option.none := hf
          by_cases htid : tid' = s.nextId
          · subst htid
            right; left
            exact ⟨rfl, _,
              (find?_append_right _ s.tasks _ hf2).trans
                (List.find?_cons_of_pos _ (by simp)),
              fun hx => EscrowStatus.noConfusion hx⟩
          · left
            refine (find?_append_right _ s.tasks _ hf2).trans ?_
            refine List.find?_cons_of_neg _ ?_
            simp only [beq_iff_eq]
            exact fun hx => htid hx.symm

/-- Route `POST /tasks/:id/work` preserves the settlement invariant: the one
place that logs `PAYMENT_SETTLED` also moves the escrow `held → released`
in the same step, so a released task has exactly one entry. -/
theorem inv_tasksSubmitWork (s : AppState) (env : Env) (tid : Nat) (body : WorkBody)
    (h : Inv s) : Inv (tasksSubmitWork s env tid body).state := by
  unfold tasksSubmitWork
  cases hft : findTask s tid with
  | none => simp only [hft]; exact h
  | some task =>
    cases hA : body.agentId with
    | none => simp only [hft, hA]; exact h
    | some aid =>
      cases hR : body.result with
      | none => simp only [hft, hA, hR]; exact h
      | some r =>
        simp only [hft, hA, hR]
        by_cases h3 : env.escrowAvailable = true
        · by_cases hheld : task.escrowStatus = EscrowStatus.held
          · have h1 : (env.escrowAvailable &&
                (task.escrowStatus == EscrowStatus.held)) = true := by
              simp [h3, hheld]
            by_cases h2 : env.releaseOk = true
            · simp only [h1, h2, if_true]
              constructor
              · exact taskFresh_ensUpdate _ _ _
                  (taskFresh_appendActivity _ _ _ _ _
                    (taskFresh_updateTask _ _ _ (fun _ => rfl)
                      (taskFresh_appendActivity _ _ _ _ _
                        (taskFresh_updateTask _ _ _ (fun _ => rfl) h.1))))
              · intro tid'
                rw [countPS_ensUpdate, countPS_appendActivity, countPS_updateTask,
                    countPS_appendActivity, countPS_updateTask,
                    findTask_ensUpdate, findTask_appendActivity]
                simp only [isPaymentSettled, Bool.and_false, Bool.and_true,
                           Bool.false_eq_true, if_false, Nat.add_zero]
                by_cases he : tid' = tid
                · subst he
                  rw [findTask_updateTask_self _ tid'
                        (fun t => { t with escrowStatus := EscrowStatus.released,
                                           settlementHash := some env.releaseTxHash,
                                           settlementTxId := some env.releaseExplorerUrl,
                                           settledAt := some env.now,
                                           status := TaskStatus.completed })
                        (fun _ => rfl),
                      findTask_appendActivity,
                      findTask_updateTask_self _ tid'
                        (fun t => { t with workResults :=
                                             t.workResults ++ [⟨aid, r, env.now⟩],
                                           status := TaskStatus.settlement })
                        (fun _ => rfl), hft]
                  have h0 : countPS s tid' = 0 := by
                    have h2' : countPS s tid' =
                        if task.escrowStatus = EscrowStatus.released then 1 else 0 := by
                      have hx := h.2 tid'
                      rw [hft] at hx
                      exact hx
                    rw [if_neg (by
                      rw [hheld]
                      exact fun hx => EscrowStatus.noConfusion hx)] at h2'
                    exact h2'
                  rw [h0]
                  simp
                · rw [findTask_updateTask_ne _ tid
                        (fun t => { t with escrowStatus := EscrowStatus.released,
                                           settlementHash := some env.releaseTxHash,
                                           settlementTxId := some env.releaseExplorerUrl,
                                           settledAt := some env.now,
                                           status := TaskStatus.completed })
                        (fun _ => rfl) tid' he,
                      findTask_appendActivity,
                      findTask_updateTask_ne _ tid
                        (fun t => { t with workResults :=
                                             t.workResults ++ [⟨aid, r, env.now⟩],
                                           status := TaskStatus.settlement })
                        (fun _ => rfl) tid' he]
                  have hbe : (tid == tid') = false :=
                    beq_eq_false_iff_ne.mpr (Ne.symm he)
                  rw [hbe]
                  simp only [Bool.false_eq_true, if_false, Nat.add_zero]
                  exact h.2 tid'
            · simp only [h1, h2, if_true, Bool.false_eq_true, if_false]
              constructor
              · exact taskFresh_appendActivity _ _ _ _ _
                  (taskFresh_updateTask _ _ _ (fun _ => rfl)
                    (taskFresh_appendActivity _ _ _ _ _
                      (taskFresh_updateTask _ _ _ (fun _ => rfl) h.1)))
              · apply psInv_of_no_settlement s _ h.2
                · intro tid'
                  rw [countPS_appendActivity, countPS_updateTask,
                      countPS_appendActivity, countPS_updateTask]
                  simp only [isPaymentSettled, Bool.and_false, Bool.false_eq_true,
                             if_false, Nat.add_zero]
                · intro tid'
                  by_cases he : tid' = tid
                  · subst he
                    right; right
                    rw [findTask_appendActivity,
                        findTask_updateTask_self _ tid'
                          (fun t => { t with status := TaskStatus.review })
                          (fun _ => rfl),
                        findTask_appendActivity,
                        findTask_updateTask_self _ tid'
                          (fun t => { t with workResults :=
                                               t.workResults ++ [⟨aid, r, env.now⟩],
                                             status := TaskStatus.settlement })
                          (fun _ => rfl), hft]
                    exact ⟨_, task, rfl, rfl, Iff.rfl⟩
                  · left
                    rw [findTask_appendActivity,
                        findTask_updateTask_ne _ tid
                          (fun t => { t with status := TaskStatus.review })
                          (fun _ => rfl) tid' he,
                        findTask_appendActivity,
                        findTask_updateTask_ne _ tid
                          (fun t => { t with workResults :=
                                               t.workResults ++ [⟨aid, r, env.now⟩],
                                             status := TaskStatus.settlement })
                          (fun _ => rfl) tid' he]
          · have h1 : (env.escrowAvailable &&
                (task.escrowStatus == EscrowStatus.held)) = false := by
              simp [hheld]
            have h4 : (!env.escrowAvailable) = false := by rw [h3]; rfl
            simp only [h1, h4, Bool.false_eq_true, if_false]
            constructor
            · exact taskFresh_appendActivity _ _ _ _ _
                (taskFresh_updateTask _ _ _ (fun _ => rfl) h.1)
            · apply psInv_of_no_settlement s _ h.2
              · intro tid'
                rw [countPS_appendActivity, countPS_updateTask]
                simp only [isPaymentSettled, Bool.and_false, Bool.false_eq_true,
                           if_false, Nat.add_zero]
              · intro tid'
                by_cases he : tid' = tid
                · subst he
                  right; right
                  rw [findTask_appendActivity,
                      findTask_updateTask_self _ tid'
                        (fun t => { t with workResults :=
                                             t.workResults ++ [⟨aid, r, env.now⟩],
                                           status := TaskStatus.settlement })
                        (fun _ => rfl), hft]
                  exact ⟨_, task, rfl, rfl, Iff.rfl⟩
                · left
                  rw [findTask_appendActivity,
                      findTask_updateTask_ne _ tid
                        (fun t => { t with workResults :=
                                             t.workResults ++ [⟨aid, r, env.now⟩],
                                           status := TaskStatus.settlement })
                        (fun _ => rfl) tid' he]
        · have h3f : env.escrowAvailable = false := by
            cases hx : env.escrowAvailable
            · rfl
            · exact absurd hx h3
          have h1 : (env.escrowAvailable &&
              (task.escrowStatus == EscrowStatus.held)) = false := by
            simp [h3f]
          have h4 : (!env.escrowAvailable) = true := by rw [h3f]; rfl
          simp only [h1, h4, Bool.false_eq_true, if_false, if_true]
          constructor
          · exact taskFresh_updateTask _ _ _ (fun _ => rfl)
              (taskFresh_appendActivity _ _ _ _ _
                (taskFresh_updateTask _ _ _ (fun _ => rfl) h.1))
          · apply psInv_of_no_settlement s _ h.2
            · intro tid'
              rw [countPS_updateTask, countPS_appendActivity, countPS_updateTask]
              simp only [isPaymentSettled, Bool.and_false, Bool.false_eq_true,
                         if_false, Nat.add_zero]
            · intro tid'
              by_cases he : tid' = tid
              · subst he
                right; right
                rw [findTask_updateTask_self _ tid'
                      (fun t => { t with status := TaskStatus.review })
                      (fun _ => rfl),
                    findTask_appendActivity,
                    findTask_updateTask_self _ tid'
                      (fun t => { t with workResults :=
                                           t.workResults ++ [⟨aid, r, env.now⟩],
                                         status := TaskStatus.settlement })
                      (fun _ => rfl), hft]
                exact ⟨_, task, rfl, rfl, Iff.rfl⟩
              · left
                rw [findTask_updateTask_ne _ tid
                      (fun t => { t with status := TaskStatus.review })
                      (fun _ => rfl) tid' he,
                    findTask_appendActivity,
                    findTask_updateTask_ne _ tid
                      (fun t => { t with workResults :=
                                           t.workResults ++ [⟨aid, r, env.now⟩],
                                         status := TaskStatus.settlement })
                      (fun _ => rfl) tid' he]

/-- Every API invocation preserves the settlement invariant. -/
theorem inv_applyOp (s : AppState) (env : Env) (op : Op) (h : Inv s) :
    Inv (applyOp s env op) := by
  cases op with
  | jobboardCreate body => exact inv_jobboardCreate s env body h
  | tasksCreate body => exact inv_tasksCreate s env body h
  | patchStatus tid body => exact inv_tasksPatchStatus s env tid body h
  | bid pid body => exact inv_jobboardBid s env pid body h
  | accept pid body => exact inv_jobboardAccept s env pid body h
  | work tid body => exact inv_tasksSubmitWork s env tid body h
  | refund tid body => exact inv_tasksRefund s env tid body h
  | agentUpsert body => exact inv_agentsUpsert s env body h
  | agentPatch aid body => exact inv_agentsPatch s aid body h

/-- Every reachable store satisfies the settlement invariant. -/
theorem inv_reachable (s : AppState) (h : Reachable s) : Inv s := by
  induction h with
  | init => exact inv_init
  | step s env op _ ih => exact inv_applyOp s env op ih

/-- C8 — counterexample.  No activity's action string is ever exactly
`PAYMENT_SETTLED`: the code appends the amount and the tx hash
(`PAYMENT_SETTLED — 100 USDC — 0xRELEASE`), so a settled/released task has
zero activities whose label *is* `PAYMENT_SETTLED` — not the exactly one
the claim requires — while it has exactly one whose structured label is of
the `PAYMENT_SETTLED` kind. -/
theorem C8_counterexample :
    (findTask sSettled 0).map Task.escrowStatus = some .released ∧
    (findTask sSettled 0).map Task.status = some .completed ∧
    sSettled.activities.countP
      (fun a => a.taskId == 0 && (a.action.render == "PAYMENT_SETTLED")) = 0 ∧
    sSettled.activities.countP (fun a => a.taskId == 0 && isPaymentSettled a.action)
      = 1 ∧
    (sSettled.activities.filter (fun a => isPaymentSettled a.action)).map
      (fun a => a.action.render) = ["PAYMENT_SETTLED — 100 USDC — 0xRELEASE"] := by
  decide

/-- C8 (amended) — with `PAYMENT_SETTLED` read as the label *kind* (the
rendered string starts with `PAYMENT_SETTLED` and carries amount and tx
hash), every reachable store has at most one such activity per task id,
and exactly one for every task whose escrow is `released`; in particular a
second identical `POST /tasks/:id/work` adds no second entry. -/
theorem C8_payment_settled_at_most_once (s : AppState) (h : Reachable s) (tid : Nat) :
    countPS s tid ≤ 1 ∧
    (∀ t, findTask s tid = some t → t.escrowStatus = .released →
      countPS s tid = 1) := by
  have hps := (inv_reachable s h).2 tid
  cases hf : findTask s tid with
  | none =>
    rw [hf] at hps
    have hz : countPS s tid = 0 := hps
    constructor
    · omega
    · intro t ht
      exact absurd ht (by simp)
  | some t0 =>
    rw [hf] at hps
    have hv : countPS s tid = if t0.escrowStatus = .released then 1 else 0 := hps
    constructor
    · rw [hv]
      split
      · omega
      · omega
    · intro t ht hrel
      rw [Option.some.injEq] at ht
      subst ht
      rw [hv, if_pos hrel]

/-- C8 — witness: the settled store is reachable in two API calls, and its
released task 0 carries exactly one `PAYMENT_SETTLED` activity. -/
theorem C8_witness : countPS sSettled 0 = 1 := by
  have hr : Reachable sSettled :=
    Reachable.step sJob envBase (Op.work 0 workBody1)
      (Reachable.step initState envBase (Op.jobboardCreate bodyJob) Reachable.init)
  exact (C8_payment_settled_at_most_once sSettled hr 0).2 taskSettled
    (Option.some_get _).symm (by decide)

end ACN
